import Mathlib

/-!
Verification model of the telegram-mcp authorization-and-execution core.

This file is a shallow embedding, in Lean 4, of the security pipeline of the
telegram-mcp repository: the risk classifier (`src/policy/risk-classifier.ts`),
the policy engine (`src/policy/engine.ts`), the approval service
(`src/approvals/approval-service.ts`) and its repository
(`src/storage/repositories.ts`), the idempotency repository, the audit
service, and the two execution paths (`executeSecured` in the v2 tool
registry and `TelegramBotService.executeDomainTool`).

Conventions used throughout:
* JavaScript objects/JSON values are modelled by the `Json` type below;
  object key uniqueness (guaranteed by the JS runtime) is the `WFJson`
  predicate.
* `sha256` and the random token generator are external primitives; functions
  that use them take the hash function as an explicit argument (witnesses
  instantiate it with the identity function).  `localeCompare(_, "en")` is
  modelled as the code-point lexicographic order `strLe`.
* Timestamps (`Date.now()`, `expires_at`) are naturals (milliseconds); the
  current time is passed explicitly.
* Asynchronous database/API calls are modelled by explicit state passing;
  thrown errors are `Except String` values.
* The pipeline state carries instrumentation counters (`domainCalls`) that
  count invocations of the injected domain-operation collaborator; they are
  measurements of the model, not source state.
-/

set_option linter.unusedVariables false

/-! ## JSON values (JavaScript objects), modelled as a mutual inductive -/

mutual
inductive Json where
  | null : Json
  | bool : Bool → Json
  | num : Int → Json
  | str : String → Json
  | arr : JsonList → Json
  | obj : JsonEntries → Json
  deriving DecidableEq

inductive JsonList where
  | nil : JsonList
  | cons : Json → JsonList → JsonList
  deriving DecidableEq

inductive JsonEntries where
  | nil : JsonEntries
  | cons : String → Json → JsonEntries → JsonEntries
  deriving DecidableEq
end

/-- The entry list of a JSON object, as a Lean list (`Object.entries`). -/
def JsonEntries.toList : JsonEntries → List (String × Json)
  | .nil => []
  | .cons k v l => (k, v) :: JsonEntries.toList l

/-- The element list of a JSON array, as a Lean list. -/
def JsonList.toList : JsonList → List Json
  | .nil => []
  | .cons a l => a :: JsonList.toList l

/-- Object field lookup (`value[key]`); JS objects have unique keys, so the
first match is the match. -/
def jsonGetField (j : Json) (key : String) : Option Json :=
  match j with
  | .obj l => (l.toList.find? fun e => e.1 = key).map (·.2)
  | _ => none

/-- `\x7b ...value, key: v \x7d` — JS object spread followed by one extra
field: replaces the field in place if present, appends it otherwise. -/
def jsonSetField (j : Json) (key : String) (v : Json) : Json :=
  match j with
  | .obj l => .obj (JsonEntries.setField l key v)
  | other => other
where
  JsonEntries.setField : JsonEntries → String → Json → JsonEntries
  | .nil, key, v => .cons key v .nil
  | .cons k0 v0 l, key, v =>
      if k0 = key then .cons k0 v (JsonEntries.setField l key v)
      else .cons k0 v0 (JsonEntries.setField l key v)

/-! ## Canonical serialization (`stableSerialize` in approval-service.ts)

The source sorts `Object.entries(value)` with `a.localeCompare(b, "en")` and
then serializes each entry.  We model the comparator as code-point order on
the key and, because the comparator reads only the key and the JS sort is
stable, sort the `(key, serialized value)` pairs instead — for the unique-key
objects produced by the JS runtime the two phrasings produce the same list. -/

/-- Code-point lexicographic order on character lists (model of
`localeCompare(_, "en") <= 0`). -/
def charsLe : List Char → List Char → Bool
  | [], _ => true
  | _ :: _, [] => false
  | c1 :: t1, c2 :: t2 =>
    if c1.toNat < c2.toNat then true
    else if c2.toNat < c1.toNat then false
    else charsLe t1 t2

def strLe (a b : String) : Bool := charsLe a.data b.data

def keyLE (a b : String × String) : Prop := strLe a.1 b.1 = true

instance : DecidableRel keyLE := fun a b => inferInstanceAs (Decidable (_ = true))

def sortKV (l : List (String × String)) : List (String × String) :=
  List.insertionSort keyLE l

/-- `JSON.stringify` of a string: the exact escape table of the external
primitive is irrelevant to every property proved here. -/
def quoteStr (s : String) : String :=
  "\"" ++ s ++ "\""

mutual
/-- `stableSerialize` (approval-service.ts): canonical JSON serialization
with recursively sorted object keys and arrays kept in order. -/
def stableSerialize : Json → String
  | .null => "null"
  | .bool true => "true"
  | .bool false => "false"
  | .num n => toString n
  | .str s => quoteStr s
  | .arr l => "[" ++ String.intercalate "," (serializeList l) ++ "]"
  | .obj l =>
      "\x7b" ++
        String.intercalate ","
          ((sortKV (serializeEntries l)).map fun kv => quoteStr kv.1 ++ ":" ++ kv.2) ++
        "\x7d"

def serializeList : JsonList → List String
  | .nil => []
  | .cons a l => stableSerialize a :: serializeList l

def serializeEntries : JsonEntries → List (String × String)
  | .nil => []
  | .cons k v l => (k, stableSerialize v) :: serializeEntries l
end

mutual
/-- Well-formedness of a value coming from the JS runtime: every object has
pairwise-distinct keys. -/
def WFJson : Json → Bool
  | .null => true
  | .bool _ => true
  | .num _ => true
  | .str _ => true
  | .arr l => WFJsonList l
  | .obj l => decide ((l.toList.map Prod.fst).Nodup) && WFJsonEntries l

def WFJsonList : JsonList → Bool
  | .nil => true
  | .cons a l => WFJson a && WFJsonList l

def WFJsonEntries : JsonEntries → Bool
  | .nil => true
  | .cons _ v l => WFJson v && WFJsonEntries l
end

/-- `List.Perm` on object entry lists. -/
abbrev EntriesPerm (a b : JsonEntries) : Prop := a.toList.Perm b.toList

mutual
/-- `PermEquiv a b`: `b` is obtained from `a` by permuting object keys (at any
depth) while keeping arrays in order — the equivalence the spec says the
canonical serialization quotients by. -/
inductive PermEquiv : Json → Json → Prop where
  | null : PermEquiv .null .null
  | bool (b : Bool) : PermEquiv (.bool b) (.bool b)
  | num (n : Int) : PermEquiv (.num n) (.num n)
  | str (s : String) : PermEquiv (.str s) (.str s)
  | arr {l1 l2 : JsonList} : PermEquivList l1 l2 → PermEquiv (.arr l1) (.arr l2)
  | obj {l1 l1' l2 : JsonEntries} : EntriesPerm l1 l1' → PermEquivEntries l1' l2 →
      PermEquiv (.obj l1) (.obj l2)

inductive PermEquivList : JsonList → JsonList → Prop where
  | nil : PermEquivList .nil .nil
  | cons {a b : Json} {l1 l2 : JsonList} : PermEquiv a b → PermEquivList l1 l2 →
      PermEquivList (.cons a l1) (.cons b l2)

inductive PermEquivEntries : JsonEntries → JsonEntries → Prop where
  | nil : PermEquivEntries .nil .nil
  | cons {k : String} {v1 v2 : Json} {l1 l2 : JsonEntries} : PermEquiv v1 v2 →
      PermEquivEntries l1 l2 → PermEquivEntries (.cons k v1 l1) (.cons k v2 l2)
end

/-! ## Core domain types (`src/types/core.ts`, `src/app/config.ts`) -/

inductive RiskLevel where
  | low | medium | high | critical
  deriving DecidableEq

def RiskLevel.toNat : RiskLevel → Nat
  | .low => 0
  | .medium => 1
  | .high => 2
  | .critical => 3

/-- The total order low < medium < high < critical on risk levels. -/
def riskLe (a b : RiskLevel) : Prop := a.toNat ≤ b.toNat

instance : DecidableRel riskLe := fun a b => inferInstanceAs (Decidable (_ ≤ _))

instance {ε α : Type _} [DecidableEq ε] [DecidableEq α] : DecidableEq (Except ε α) :=
  fun x y =>
    match x, y with
    | .ok a, .ok b =>
      if h : a = b then isTrue (by rw [h]) else isFalse (by intro hc; injection hc; contradiction)
    | .error a, .error b =>
      if h : a = b then isTrue (by rw [h]) else isFalse (by intro hc; injection hc; contradiction)
    | .ok _, .error _ => isFalse (by intro hc; exact Except.noConfusion hc)
    | .error _, .ok _ => isFalse (by intro hc; exact Except.noConfusion hc)

def riskStr : RiskLevel → String
  | .low => "low"
  | .medium => "medium"
  | .high => "high"
  | .critical => "critical"

inductive Role where
  | owner | admin | operator | readonly
  deriving DecidableEq

structure Principal where
  subject : String
  roles : List Role
  tenantId : String
  authSource : String
  deriving DecidableEq

inductive Effect where
  | allow | deny
  deriving DecidableEq

def effectStr : Effect → String
  | .allow => "allow"
  | .deny => "deny"

structure ToolPermission where
  tool : String
  operations : List String
  riskLevel : RiskLevel
  effect : Effect
  deriving DecidableEq

structure PolicyDecision where
  allow : Bool
  reason : String
  matchedRule : Option ToolPermission
  deriving DecidableEq

/-- `policySchema` in config.ts. -/
structure PolicyConfig where
  defaultEffect : Effect
  allowRawToolForRoles : List Role
  deriving DecidableEq

/-- Schema defaults: `defaultEffect: "deny"`, `allowRawToolForRoles:
["owner", "admin"]`. -/
def defaultPolicyConfig : PolicyConfig :=
  ⟨.deny, [.owner, .admin]⟩

/-- `approvalsSchema` in config.ts. -/
structure ApprovalsConfig where
  enabled : Bool
  ttlSeconds : Nat
  requiredRiskLevels : List RiskLevel
  deriving DecidableEq

/-- Schema defaults: `enabled: true`, `ttlSeconds: 900`,
`requiredRiskLevels: ["high", "critical"]`. -/
def defaultApprovalsConfig : ApprovalsConfig :=
  ⟨true, 900, [.high, .critical]⟩

/-! ## Risk classifier (`src/policy/risk-classifier.ts`)

Each regex `RULES[i].pattern` (all carry the `/i` flag) is embedded as a
decidable test on the lower-cased character list of the key. -/

def lowerData (s : String) : List Char := s.data.map Char.toLower

/-- `/\.(w1|w2|...)$/` — the key ends with a dot followed by one of the
words. -/
def suffixAny (words : List String) (key : List Char) : Bool :=
  words.any fun w => ("." ++ w).data.isSuffixOf key

/-- `pat.isPrefixOf l` at some position of `l`. -/
def isInfixOfL (pat : List Char) : List Char → Bool
  | [] => pat.isEmpty
  | l@(_ :: t) => pat.isPrefixOf l || isInfixOfL pat t

/-- `/pat/` with no anchors — the pattern occurs somewhere in the key. -/
def containsPat (w : String) (key : List Char) : Bool :=
  isInfixOfL w.data key

/-- The ordered rule list of `risk-classifier.ts` (first match wins). -/
def RULES : List ((List Char → Bool) × RiskLevel) :=
  [ (suffixAny ["ban", "unban", "promote", "demote", "delete", "remove", "revoke"], .high),
    (containsPat ".approval.", .critical),
    (containsPat ".privacy.", .high),
    (containsPat ".join", .high),
    (suffixAny ["create", "invite", "import", "export", "archive", "unarchive"], .medium),
    (suffixAny ["update", "edit", "set", "pin", "unpin", "forward", "reply", "react"], .medium),
    (fun key => containsPat ".media.upload" key || containsPat ".media.download" key, .medium) ]

/-- `classifyRisk`: build the key `tool + "." + operation`, return the risk
level of the first matching rule, else `defaultRisk ?? "low"`. -/
def classifyRisk (tool operation : String) (defaultRisk : Option RiskLevel) : RiskLevel :=
  let key := lowerData (tool ++ "." ++ operation)
  match RULES.find? (fun rule => rule.1 key) with
  | some rule => rule.2
  | none => defaultRisk.getD .low

/-! ## Policy engine (`src/policy/engine.ts`)

The deny-counter metric increment is observability only (the source comment
and the spec both say it does not affect the returned decision); the model
returns the decision. -/

def riskyByRoleMinimum : RiskLevel → List Role
  | .low => [.readonly, .operator, .admin, .owner]
  | .medium => [.operator, .admin, .owner]
  | .high => [.admin, .owner]
  | .critical => [.admin, .owner]

def PolicyEngine.evaluate (cfg : PolicyConfig) (permissions : List ToolPermission)
    (principal : Principal) (tool operation : String) (riskLevel : RiskLevel) :
    PolicyDecision :=
  if tool = "telegram.bot.raw" ∧
      ¬ principal.roles.any (fun role => decide (role ∈ cfg.allowRawToolForRoles)) then
    ⟨false, "raw tool denied by role policy", none⟩
  else if ¬ principal.roles.any (fun role => decide (role ∈ riskyByRoleMinimum riskLevel)) then
    ⟨false, "role does not allow " ++ riskStr riskLevel ++ " risk operations", none⟩
  else
    match permissions.find? (fun permission =>
        decide (permission.tool = tool) &&
          (decide ("*" ∈ permission.operations) || decide (operation ∈ permission.operations))) with
    | none =>
        ⟨cfg.defaultEffect = .allow, "default policy effect: " ++ effectStr cfg.defaultEffect, none⟩
    | some matched =>
        if matched.effect = .deny then ⟨false, "explicit deny rule matched", some matched⟩
        else ⟨true, "explicit allow rule matched", some matched⟩

example :
    classifyRisk "telegram.v2.chats" "ban_user" none = .low := by decide

example :
    classifyRisk "telegram.v2.chats" "ban_user" (some .high) = .high := by decide

example :
    classifyRisk "telegram.bot.members" "banChatMember.ban" none = .high := by decide

example :
    classifyRisk "telegram.v2.chats" "get_chats" none = .low := by decide

example :
    classifyRisk "telegram.v2.approval.request" "request" none = .critical := by decide

example :
    (PolicyEngine.evaluate defaultPolicyConfig [] ⟨"u", [.readonly], "t", "local"⟩
      "telegram.bot.raw" "sendMessage" .low).reason = "raw tool denied by role policy" := by
  decide

/-! ## Approval storage (`ApprovalRepository` in repositories.ts) -/

structure TokenRow where
  id : String
  approvalRequestId : String
  tokenHash : String
  status : String
  expiresAt : Nat
  usedAt : Option Nat
  deriving DecidableEq

structure RequestRow where
  id : String
  principalSubject : String
  tool : String
  operation : String
  riskLevel : RiskLevel
  payloadHash : String
  status : String
  expiresAt : Nat
  deriving DecidableEq

structure ApprovalStore where
  requests : List RequestRow
  tokens : List TokenRow
  deriving DecidableEq

/-- The `SELECT` of `consumeToken`: first token row with the given hash. -/
def consumeTokenRead (tokens : List TokenRow) (tokenHash : String) : Option TokenRow :=
  tokens.find? fun t => t.tokenHash = tokenHash

/-- The `UPDATE ... SET status = 'used', used_at = NOW() WHERE id = $1 AND
status = 'active'` of `consumeToken`. -/
def consumeTokenMark (tokens : List TokenRow) (id : String) (now : Nat) : List TokenRow :=
  tokens.map fun t =>
    if t.id = id ∧ t.status = "active" then { t with status := "used", usedAt := some now }
    else t

/-- `ApprovalRepository.consumeToken`: a `SELECT` returning the row as read,
followed by a separate conditional `UPDATE` marking it used.  The returned
row carries the status seen by the `SELECT`. -/
def consumeToken (st : ApprovalStore) (tokenHash : String) (now : Nat) :
    Option TokenRow × ApprovalStore :=
  match consumeTokenRead st.tokens tokenHash with
  | none => (none, st)
  | some row => (some row, { st with tokens := consumeTokenMark st.tokens row.id now })

/-- `ApprovalRepository.getRequestById`. -/
def getRequestById (st : ApprovalStore) (id : String) : Option RequestRow :=
  st.requests.find? fun r => r.id = id

/-! ## Approval service (`src/approvals/approval-service.ts`) -/

structure VerifyInput where
  approvalToken : String
  principal : Principal
  tool : String
  operation : String
  riskLevel : RiskLevel
  payload : Json
  deriving DecidableEq

/-- `isApprovalRequired`: approvals enabled and the risk level is in the
configured set. -/
def isApprovalRequired (cfg : ApprovalsConfig) (riskLevel : RiskLevel) : Bool :=
  cfg.enabled && cfg.requiredRiskLevels.contains riskLevel

/-- The check chain of `verifyAndConsume` after `consumeToken` has returned:
each failing guard throws the corresponding error, in source order. -/
def verifyChecks (hash : String → String) (now : Nat) (st : ApprovalStore)
    (input : VerifyInput) : Option TokenRow → Except String String
  | none => .error "Invalid approval token"
  | some tokenRow =>
    if tokenRow.status ≠ "active" then .error "Approval token is not active"
    else if tokenRow.expiresAt < now then .error "Approval token has expired"
    else
      match getRequestById st tokenRow.approvalRequestId with
      | none => .error "Approval request not found"
      | some request =>
        if request.status ≠ "approved" then .error "Approval request is not approved"
        else if request.principalSubject ≠ input.principal.subject then
          .error "Approval token principal mismatch"
        else if request.tool ≠ input.tool ∨ request.operation ≠ input.operation then
          .error "Approval token action mismatch"
        else if request.riskLevel ≠ input.riskLevel then
          .error "Approval token risk mismatch"
        else if request.payloadHash ≠ hash (stableSerialize input.payload) then
          .error "Approval token payload mismatch"
        else if request.expiresAt < now then .error "Approval request has expired"
        else .ok request.id

/-- `ApprovalService.verifyAndConsume`: hash the bearer token, consume the
row at the repository, then run the verification chain on the row the
`SELECT` returned. -/
def verifyAndConsume (hash : String → String) (now : Nat) (st : ApprovalStore)
    (input : VerifyInput) : Except String String × ApprovalStore :=
  let consumed := consumeToken st (hash input.approvalToken) now
  (verifyChecks hash now consumed.2 input consumed.1, consumed.2)

structure RequestApprovalInput where
  principal : Principal
  tool : String
  operation : String
  riskLevel : RiskLevel
  payload : Json

/-- `ApprovalService.requestApproval`: hash the canonical payload, insert an
`approved` request row and an `active` token row (token hash of a fresh
random bearer secret), both expiring `ttlSeconds` from now.  The fresh UUIDs
and the random bearer token come from external entropy and are passed in. -/
def requestApproval (hash : String → String) (now ttlSeconds : Nat)
    (newRequestId newTokenId rawToken : String) (st : ApprovalStore)
    (input : RequestApprovalInput) : (String × String × Nat) × ApprovalStore :=
  let payloadHash := hash (stableSerialize input.payload)
  let expiresAt := now + ttlSeconds * 1000
  let requestRow : RequestRow :=
    { id := newRequestId, principalSubject := input.principal.subject, tool := input.tool,
      operation := input.operation, riskLevel := input.riskLevel, payloadHash := payloadHash,
      status := "approved", expiresAt := expiresAt }
  let tokenRow : TokenRow :=
    { id := newTokenId, approvalRequestId := newRequestId, tokenHash := hash rawToken,
      status := "active", expiresAt := expiresAt, usedAt := none }
  ((newRequestId, rawToken, expiresAt),
    { requests := st.requests ++ [requestRow], tokens := st.tokens ++ [tokenRow] })

/-! ## Idempotency repository (`IdempotencyRepository` in repositories.ts) -/

structure IdemRecord where
  key : String
  operation : String
  response : Json
  expiresAt : Nat
  deriving DecidableEq

/-- `tryGet`: the stored response for the key if present and unexpired
(`expires_at > NOW()`). -/
def idemTryGet (idem : List IdemRecord) (now : Nat) (key : String) : Option Json :=
  (idem.find? fun r => decide (r.key = key) && decide (now < r.expiresAt)).map (·.response)

/-- `save`: `INSERT ... ON CONFLICT (key) DO UPDATE SET response, expires_at`
— an upsert that rewrites the response and expiry of an existing key (the
`operation` column is not updated on conflict) and inserts otherwise. -/
def idemSave (idem : List IdemRecord) (now : Nat) (key operation : String)
    (response : Json) (ttlSeconds : Nat := 300) : List IdemRecord :=
  if idem.any fun r => r.key = key then
    idem.map fun r =>
      if r.key = key then { r with response := response, expiresAt := now + ttlSeconds * 1000 }
      else r
  else
    idem ++ [{ key := key, operation := operation, response := response,
               expiresAt := now + ttlSeconds * 1000 }]

/-! ## Audit events (`src/audit/audit-service.ts`) -/

structure AuditEvent where
  principalSubject : String
  action : String
  tool : String
  operation : String
  allowed : Bool
  reason : String
  riskLevel : Option RiskLevel
  approvalId : Option String
  metadata : List (String × Json)
  deriving DecidableEq

/-- Number of `tool_execute` events in an audit log. -/
def countExec (log : List AuditEvent) : Nat :=
  (log.filter fun ev => ev.action = "tool_execute").length


/-! ## The v2 pipeline (`executeSecured` in the v2 tool registry) -/

/-- Mutable world visible to one `executeSecured` invocation, plus the
`domainCalls` instrumentation counter (number of calls of the injected
`execute` callback). -/
structure PipeState where
  idem : List IdemRecord
  auditLog : List AuditEvent
  approvals : ApprovalStore
  domainCalls : Nat
  deriving DecidableEq

structure SecInput where
  principal : Principal
  tool : String
  operation : String
  accountRef : String
  payload : Json
  idempotencyKey : Option String
  dryRun : Bool
  approvalToken : Option String
  defaultRisk : Option RiskLevel
  approvalExempt : Bool
  deriving DecidableEq

structure SecConfig where
  policy : PolicyConfig
  approvals : ApprovalsConfig
  deriving DecidableEq

def optStrJson : Option String → Json
  | none => .null
  | some s => .str s

/-- `executeSecured` (v2 tool registry): classify risk, evaluate policy,
audit the authorization, then deny / dry-run / idempotent-replay /
verify-and-consume approval / invoke the domain operation, caching and
auditing the outcome. -/
def executeSecured (cfg : SecConfig) (permissions : List ToolPermission)
    (hash : String → String) (now : Nat) (execute : Except String Json)
    (st : PipeState) (input : SecInput) : Except String Json × PipeState :=
  let riskLevel := classifyRisk input.tool input.operation input.defaultRisk
  let decision := PolicyEngine.evaluate cfg.policy permissions input.principal
    input.tool input.operation riskLevel
  let authEvent : AuditEvent :=
    { principalSubject := input.principal.subject, action := "tool_authorize",
      tool := input.tool, operation := input.operation, allowed := decision.allow,
      reason := decision.reason, riskLevel := some riskLevel, approvalId := none,
      metadata := [("accountRef", .str input.accountRef)] }
  let st := { st with auditLog := st.auditLog ++ [authEvent] }
  let runDomain : Option String → PipeState → Except String Json × PipeState :=
    fun approvalId st =>
      let st := { st with domainCalls := st.domainCalls + 1 }
      match execute with
      | .ok result =>
        let response : Json := .obj
          (.cons "ok" (.bool true) (.cons "tool" (.str input.tool)
            (.cons "operation" (.str input.operation)
              (.cons "riskLevel" (.str (riskStr riskLevel))
                (.cons "approvalId" (optStrJson approvalId)
                  (.cons "result" result .nil))))))
        let st :=
          match input.idempotencyKey with
          | some k =>
            { st with idem :=
                (idemSave st.idem now k (input.tool ++ "." ++ input.operation) response) }
          | none => st
        let execEvent : AuditEvent :=
          { principalSubject := input.principal.subject, action := "tool_execute",
            tool := input.tool, operation := input.operation, allowed := true,
            reason := "execution succeeded", riskLevel := some riskLevel,
            approvalId := approvalId,
            metadata := [("accountRef", .str input.accountRef)] }
        (.ok response, { st with auditLog := st.auditLog ++ [execEvent] })
      | .error e =>
        let execEvent : AuditEvent :=
          { principalSubject := input.principal.subject, action := "tool_execute",
            tool := input.tool, operation := input.operation, allowed := false,
            reason := "execution failed", riskLevel := some riskLevel,
            approvalId := approvalId,
            metadata := [("accountRef", .str input.accountRef), ("error", .str e)] }
        (.error e, { st with auditLog := st.auditLog ++ [execEvent] })
  if decision.allow = false then
    (.error ("Policy denied operation: " ++ decision.reason), st)
  else if input.dryRun then
    (.ok (.obj (.cons "ok" (.bool true) (.cons "dryRun" (.bool true)
      (.cons "tool" (.str input.tool) (.cons "operation" (.str input.operation)
        (.cons "riskLevel" (.str (riskStr riskLevel)) .nil)))))), st)
  else
    match (match input.idempotencyKey with
           | some k => idemTryGet st.idem now k
           | none => none) with
    | some cached => (.ok (jsonSetField cached "idempotent" (.bool true)), st)
    | none =>
      if ¬ input.approvalExempt ∧ isApprovalRequired cfg.approvals riskLevel then
        match input.approvalToken with
        | none =>
          (.error ("Approval required for " ++ input.tool ++ "." ++ input.operation ++
            ". Use telegram.v2.approval.request"), st)
        | some tok =>
          match verifyAndConsume hash now st.approvals
              ⟨tok, input.principal, input.tool, input.operation, riskLevel, input.payload⟩ with
          | (.error e, appr) => (.error e, { st with approvals := appr })
          | (.ok approvalId, appr) => runDomain (some approvalId) { st with approvals := appr }
      else
        runDomain none st

/-! ## The Bot-API path (`TelegramBotService.executeDomainTool`,
`src/telegram/bot/method-matrix.ts`) -/

inductive BotToolFamily where
  | messages | media | chats | members | inline | commands | webhooks
  | payments | business | passport | stickers | forum | raw
  deriving DecidableEq

def familyStr : BotToolFamily → String
  | .messages => "messages"
  | .media => "media"
  | .chats => "chats"
  | .members => "members"
  | .inline => "inline"
  | .commands => "commands"
  | .webhooks => "webhooks"
  | .payments => "payments"
  | .business => "business"
  | .passport => "passport"
  | .stickers => "stickers"
  | .forum => "forum"
  | .raw => "raw"

structure BotMethodSpec where
  method : String
  family : BotToolFamily
  riskLevel : RiskLevel
  deriving DecidableEq

/-- `BOT_METHODS_BY_NAME`, built from the matrix by a `reduce` whose later
entries overwrite earlier ones: lookup returns the last entry with the
name.  (The repository's contract test asserts the names are distinct.)  The
matrix itself is generated data not present in the source tree, so the model
quantifies over it. -/
def byName (table : List BotMethodSpec) (method : String) : Option BotMethodSpec :=
  table.reverse.find? fun s => s.method = method

/-- `BOT_METHODS_BY_FAMILY`: the matrix entries of a family, in order. -/
def byFamily (table : List BotMethodSpec) (family : BotToolFamily) : List BotMethodSpec :=
  table.filter fun s => s.family = family

/-- Lower-casing used by the case-insensitive bot-method lookup. -/
def strToLower (s : String) : String := ⟨s.data.map Char.toLower⟩

/-- `resolveMethodName`: for `raw`, take `input.method` (a string of length
at least 2); otherwise find the operation in the matrix (exact name first —
rejecting a family mismatch — then case-insensitively within the family). -/
def resolveMethodName (table : List BotMethodSpec) (family : BotToolFamily)
    (operation : String) (input : Json) : Except String String :=
  if family = .raw then
    match jsonGetField input "method" with
    | some (.str rawMethod) =>
      if rawMethod.length < 2 then .error "Raw tool requires input.method"
      else .ok rawMethod
    | _ => .error "Raw tool requires input.method"
  else
    match byName table operation with
    | some found =>
      if found.family ≠ family then
        .error ("Method " ++ operation ++ " is not allowed for family " ++ familyStr family ++
          "; expected " ++ familyStr found.family)
      else .ok operation
    | none =>
      match (byFamily table family).find?
          (fun item => strToLower item.method = strToLower operation) with
      | some item => .ok item.method
      | none =>
        .error ("Unknown or unsupported operation \"" ++ operation ++ "\" for " ++
          familyStr family)

/-- Drop every `method` field of a raw-call input (`const , ...rest  = input`). -/
def jsonDropMethod (input : Json) : Json :=
  match input with
  | .obj l => .obj (dropMethod l)
  | other => other
where
  dropMethod : JsonEntries → JsonEntries
  | .nil => .nil
  | .cons k v l => if k = "method" then dropMethod l else .cons k v (dropMethod l)

/-- `resolveMethodPayload`: non-raw families pass the input through; `raw`
uses `input.params` when it is a (non-array, non-null) object, else the
input without its `method` field. -/
def resolveMethodPayload (family : BotToolFamily) (input : Json) : Json :=
  if family ≠ .raw then input
  else
    match jsonGetField input "params" with
    | some (.obj params) => .obj params
    | _ => jsonDropMethod input

/-- `BOT_METHODS_BY_NAME[method]?.riskLevel ?? "critical"` — the risk level
the Bot-API path assigns before policy evaluation. -/
def botRiskLevel (table : List BotMethodSpec) (method : String) : RiskLevel :=
  match byName table method with
  | some spec => spec.riskLevel
  | none => .critical

structure BotRequest where
  accountRef : String
  operation : String
  input : Json
  idempotencyKey : Option String
  dryRun : Bool
  deriving DecidableEq

/-- State visible to one `executeDomainTool` invocation (this path touches
no approval store), plus the `domainCalls` instrumentation counter. -/
structure BotState where
  idem : List IdemRecord
  auditLog : List AuditEvent
  domainCalls : Nat
  deriving DecidableEq

/-- `TelegramBotService.executeDomainTool`.  External collaborators are
passed as values: `validate` (the black-box method-schema validator),
`resolveToken` (account lookup plus decryption) and `callApi` (the Telegram
Bot API client call).  Note the absence of a catch around the domain call:
a thrown `callApi` error propagates before the idempotency write and the
`tool_execute` audit write are reached. -/
def TelegramBotService.executeDomainTool (cfg : PolicyConfig)
    (permissions : List ToolPermission) (table : List BotMethodSpec)
    (validate : String → Json → Except String Unit) (resolveToken : Except String String)
    (callApi : Except String Json) (now : Nat) (st : BotState)
    (family : BotToolFamily) (request : BotRequest) (principal : Principal) :
    Except String Json × BotState :=
  match resolveMethodName table family request.operation request.input with
  | .error e => (.error e, st)
  | .ok method =>
    let methodPayload := resolveMethodPayload family request.input
    match validate method methodPayload with
    | .error e => (.error e, st)
    | .ok _ =>
      let riskLevel := botRiskLevel table method
      let toolName := "telegram.bot." ++ familyStr family
      let decision := PolicyEngine.evaluate cfg permissions principal toolName method riskLevel
      let authEvent : AuditEvent :=
        { principalSubject := principal.subject, action := "tool_authorize",
          tool := toolName, operation := method, allowed := decision.allow,
          reason := decision.reason, riskLevel := none, approvalId := none,
          metadata := [("accountRef", .str request.accountRef)] }
      let st := { st with auditLog := st.auditLog ++ [authEvent] }
      if decision.allow = false then
        (.error ("Policy denied operation: " ++ decision.reason), st)
      else if request.dryRun then
        (.ok (.obj (.cons "ok" (.bool true) (.cons "dryRun" (.bool true)
          (.cons "method" (.str method)
            (.cons "family" (.str (familyStr family)) .nil))))), st)
      else
        let proceed : BotState → Except String Json × BotState := fun st =>
          match resolveToken with
          | .error e => (.error e, st)
          | .ok _token =>
            let st := { st with domainCalls := st.domainCalls + 1 }
            match callApi with
            | .error e => (.error e, st)
            | .ok result =>
              let response : Json := .obj (.cons "ok" (.bool true)
                (.cons "method" (.str method) (.cons "result" result .nil)))
              let st :=
                match request.idempotencyKey with
                | some k =>
                  { st with idem :=
                      (idemSave st.idem now k (familyStr family ++ "." ++ method) response) }
                | none => st
              let execEvent : AuditEvent :=
                { principalSubject := principal.subject, action := "tool_execute",
                  tool := toolName, operation := method, allowed := true,
                  reason := "execution succeeded", riskLevel := none, approvalId := none,
                  metadata := [("accountRef", .str request.accountRef)] }
              (.ok response, { st with auditLog := st.auditLog ++ [execEvent] })
        match request.idempotencyKey with
        | some k =>
          match idemTryGet st.idem now k with
          | some cached => (.ok cached, st)
          | none => proceed st
        | none => proceed st

/-! ## Two concurrent `consumeToken` calls, interleaved at query level

`consumeToken` issues two separate queries: a `SELECT` and then an
`UPDATE`.  Under the single-process async runtime both queries of the two
in-flight requests can interleave freely; each list entry of a schedule
names the attempt whose next query runs. -/

inductive Tid where
  | A | B
  deriving DecidableEq

/-- Program counter of one in-flight `consumeToken`: the snapshot its
`SELECT` returned (absent until the read ran) and whether its `UPDATE`
ran. -/
structure ConsumeAttempt where
  snapshot : Option (Option TokenRow)
  marked : Bool
  deriving DecidableEq

structure TwoConsume where
  store : ApprovalStore
  attemptA : ConsumeAttempt
  attemptB : ConsumeAttempt
  deriving DecidableEq

/-- Run the next pending query (read, then mark) of one attempt. -/
def stepConsume (tokenHash : String) (now : Nat) (s : TwoConsume) (t : Tid) : TwoConsume :=
  let att := match t with | .A => s.attemptA | .B => s.attemptB
  let (att, store) :=
    match att.snapshot with
    | none => ({ att with snapshot := some (consumeTokenRead s.store.tokens tokenHash) }, s.store)
    | some snap =>
      if att.marked then (att, s.store)
      else
        match snap with
        | some row =>
          ({ att with marked := true },
            { s.store with tokens := consumeTokenMark s.store.tokens row.id now })
        | none => ({ att with marked := true }, s.store)
  match t with
  | .A => { s with store := store, attemptA := att }
  | .B => { s with store := store, attemptB := att }

/-- Run a schedule of interleaved queries of the two attempts. -/
def runConsumes (tokenHash : String) (now : Nat) (sched : List Tid) (s : TwoConsume) :
    TwoConsume :=
  sched.foldl (stepConsume tokenHash now) s

def initialTwoConsume (st : ApprovalStore) : TwoConsume :=
  ⟨st, ⟨none, false⟩, ⟨none, false⟩⟩


/-! ## Generic list lemmas -/

theorem find?_eq_of_first {α : Type _} (l : List α) (p : α → Bool) :
    ∀ (i : Nat) (a : α), l[i]? = some a → p a = true →
    (∀ j b, j < i → l[j]? = some b → p b = false) → l.find? p = some a := by
  induction l with
  | nil => intro i a ha _ _; simp at ha
  | cons x t ih =>
    intro i a ha hpa hprev
    cases i with
    | zero =>
      simp at ha
      subst ha
      simp [List.find?_cons, hpa]
    | succ n =>
      have hx : p x = false := hprev 0 x (Nat.succ_pos n) (by simp)
      simp at ha
      rw [List.find?_cons, hx]
      exact ih n a ha hpa fun j b hj hb => hprev (j + 1) b (by omega) (by simpa using hb)

theorem find?_map_of_pred {α β : Type _} (f : α → β) (p : β → Bool) (q : α → Bool)
    (hpq : ∀ a, p (f a) = q a) (l : List α) :
    (l.map f).find? p = (l.find? q).map f := by
  induction l with
  | nil => simp
  | cons x t ih =>
    by_cases hx : q x = true
    · simp [List.find?_cons, hpq, hx]
    · simp only [Bool.not_eq_true] at hx
      simp [List.find?_cons, hpq, hx, ih]

/-! ## C6: raw-tool gate -/

/-- C6 — For every principal holding neither `owner` nor `admin`, the policy
engine denies the raw passthrough tool `telegram.bot.raw` with reason
"raw tool denied by role policy", for every permission rule list, operation
and risk level, whenever the configured raw-tool role set is the default
`["owner", "admin"]`. -/
theorem C6_raw_tool_denied (cfg : PolicyConfig)
    (hcfg : cfg.allowRawToolForRoles = [.owner, .admin])
    (permissions : List ToolPermission) (principal : Principal)
    (howner : Role.owner ∉ principal.roles) (hadmin : Role.admin ∉ principal.roles)
    (operation : String) (riskLevel : RiskLevel) :
    PolicyEngine.evaluate cfg permissions principal "telegram.bot.raw" operation riskLevel =
      ⟨false, "raw tool denied by role policy", none⟩ := by
  unfold PolicyEngine.evaluate
  have hany : principal.roles.any
      (fun role => decide (role ∈ cfg.allowRawToolForRoles)) = false := by
    rw [hcfg]
    simp only [List.any_eq_false, decide_eq_true_eq]
    intro role hrole hmem
    simp only [List.mem_cons, List.not_mem_nil, or_false] at hmem
    rcases hmem with h | h
    · exact howner (by simpa [h] using hrole)
    · exact hadmin (by simpa [h] using hrole)
  simp [hany]

/-- Witness for C6 at a concrete operator/readonly principal. -/
theorem C6_raw_tool_denied_witness :
    PolicyEngine.evaluate defaultPolicyConfig
      [⟨"telegram.bot.raw", ["*"], .low, .allow⟩]
      ⟨"user-1", [.operator, .readonly], "tenant", "oidc"⟩
      "telegram.bot.raw" "sendMessage" .low =
      ⟨false, "raw tool denied by role policy", none⟩ :=
  C6_raw_tool_denied defaultPolicyConfig rfl
    [⟨"telegram.bot.raw", ["*"], .low, .allow⟩]
    ⟨"user-1", [.operator, .readonly], "tenant", "oidc"⟩
    (by decide) (by decide) "sendMessage" .low

/-! ## C7: ordered first-match risk classification -/

/-- C7 — `classifyRisk` builds the key `tool ++ "." ++ operation` and (1)
returns the risk level of the first rule in the ordered list `RULES` whose
pattern matches the key, (2) returns `defaultRisk` (or `low` when absent)
when no rule matches, and (3) the seven rules carry, in order, the risk
levels high, critical, high, high, medium, medium, medium stated by the
spec (destructive suffixes; approval namespace; privacy namespace; join;
create/invite/import/export/archive/unarchive; update/edit/set/pin/unpin/
forward/reply/react; media upload/download). -/
theorem C7_first_match_classification :
    (∀ (tool operation : String) (defaultRisk : Option RiskLevel) (i : Nat)
        (rule : (List Char → Bool) × RiskLevel),
      RULES[i]? = some rule →
      rule.1 (lowerData (tool ++ "." ++ operation)) = true →
      (∀ j rj, j < i → RULES[j]? = some rj →
        rj.1 (lowerData (tool ++ "." ++ operation)) = false) →
      classifyRisk tool operation defaultRisk = rule.2) ∧
    (∀ (tool operation : String) (defaultRisk : Option RiskLevel),
      (∀ rule ∈ RULES, rule.1 (lowerData (tool ++ "." ++ operation)) = false) →
      classifyRisk tool operation defaultRisk = defaultRisk.getD .low) ∧
    RULES.map Prod.snd = [.high, .critical, .high, .high, .medium, .medium, .medium] := by
  refine ⟨?_, ?_, by decide⟩
  · intro tool operation defaultRisk i rule hget hmatch hprev
    simp only [classifyRisk]
    rw [find?_eq_of_first RULES _ i rule hget hmatch hprev]
  · intro tool operation defaultRisk hnone
    simp only [classifyRisk]
    rw [List.find?_eq_none.mpr fun rule hrule => by simp [hnone rule hrule]]

/-- Witness for C7: the destructive-suffix rule (index 0) fires for the key
`telegram.bot.members.promote`, and an unmatched key falls back to the
default risk. -/
theorem C7_first_match_classification_witness :
    classifyRisk "telegram.bot.members" "promote" none = .high ∧
    classifyRisk "telegram.v2.chats" "get_chats" (some .medium) = .medium := by
  constructor
  · exact C7_first_match_classification.1 "telegram.bot.members" "promote" none 0
      (suffixAny ["ban", "unban", "promote", "demote", "delete", "remove", "revoke"], .high)
      rfl (by decide) (fun j rj hj _ => absurd hj (by omega))
  · exact C7_first_match_classification.2.1 "telegram.v2.chats" "get_chats" (some .medium)
      (by decide)


/-! ## Approval-token lemmas -/

/-- Marking preserves every token's hash, so the first row found by hash is
stable under marking. -/
theorem consumeTokenRead_mark (tokens : List TokenRow) (id : String) (now : Nat)
    (tokenHash : String) :
    consumeTokenRead (consumeTokenMark tokens id now) tokenHash =
      (consumeTokenRead tokens tokenHash).map fun t =>
        if t.id = id ∧ t.status = "active" then { t with status := "used", usedAt := some now }
        else t := by
  unfold consumeTokenRead consumeTokenMark
  exact find?_map_of_pred _ _ _
    (fun t => by by_cases hc : t.id = id ∧ t.status = "active" <;> simp [hc]) tokens

/-- Inversion of a successful `verifyChecks` run: every guard passed. -/
theorem verifyChecks_ok_inversion {hash : String → String} {now : Nat} {st : ApprovalStore}
    {input : VerifyInput} {snap : Option TokenRow} {rid : String}
    (h : verifyChecks hash now st input snap = .ok rid) :
    ∃ row, snap = some row ∧ row.status = "active" ∧ ¬ row.expiresAt < now ∧
      ∃ req, getRequestById st row.approvalRequestId = some req ∧
        req.status = "approved" ∧ req.principalSubject = input.principal.subject ∧
        req.tool = input.tool ∧ req.operation = input.operation ∧
        req.riskLevel = input.riskLevel ∧
        req.payloadHash = hash (stableSerialize input.payload) ∧
        ¬ req.expiresAt < now ∧ rid = req.id := by
  cases snap with
  | none => exact absurd h (by simp [verifyChecks])
  | some row =>
    refine ⟨row, rfl, ?_⟩
    simp only [verifyChecks] at h
    by_cases h1 : row.status = "active"
    case neg => rw [if_pos (by simpa using h1)] at h; exact absurd h (by simp)
    rw [if_neg (by simpa using h1)] at h
    by_cases h2 : row.expiresAt < now
    case pos => rw [if_pos h2] at h; exact absurd h (by simp)
    rw [if_neg h2] at h
    cases hreq : getRequestById st row.approvalRequestId with
    | none => rw [hreq] at h; exact absurd h (by simp)
    | some req =>
      simp only [hreq] at h
      by_cases h3 : req.status = "approved"
      case neg => rw [if_pos (by simpa using h3)] at h; exact absurd h (by simp)
      rw [if_neg (by simpa using h3)] at h
      by_cases h4 : req.principalSubject = input.principal.subject
      case neg => rw [if_pos (by simpa using h4)] at h; exact absurd h (by simp)
      rw [if_neg (by simpa using h4)] at h
      by_cases h5 : req.tool = input.tool ∧ req.operation = input.operation
      case neg =>
        rw [if_pos (by rw [Decidable.not_and_iff_or_not] at h5; simpa using h5)] at h
        exact absurd h (by simp)
      rw [if_neg (by push_neg; exact ⟨h5.1, h5.2⟩)] at h
      by_cases h6 : req.riskLevel = input.riskLevel
      case neg => rw [if_pos (by simpa using h6)] at h; exact absurd h (by simp)
      rw [if_neg (by simpa using h6)] at h
      by_cases h7 : req.payloadHash = hash (stableSerialize input.payload)
      case neg => rw [if_pos (by simpa using h7)] at h; exact absurd h (by simp)
      rw [if_neg (by simpa using h7)] at h
      by_cases h8 : req.expiresAt < now
      case pos => rw [if_pos h8] at h; exact absurd h (by simp)
      rw [if_neg h8] at h
      have hrid : rid = req.id := by
        injection h with h'
        exact h'.symm
      exact ⟨h1, h2, req, rfl, h3, h4, h5.1, h5.2, h6, h7, h8, hrid⟩


/-! ## C2: single-use approval tokens (sequential) -/

/-- C2 — After one successful `verifyAndConsume`, the stored token row's
status is no longer `active` (it reads back as `used`), and any second
`verifyAndConsume` presenting the same bearer token — at any later time,
with any arguments — fails with "Approval token is not active". -/
theorem C2_approval_token_single_use (hash : String → String) (now1 now2 : Nat)
    (st st' : ApprovalStore) (input input2 : VerifyInput) (rid : String)
    (h : verifyAndConsume hash now1 st input = (.ok rid, st'))
    (htok : input2.approvalToken = input.approvalToken) :
    (verifyAndConsume hash now2 st' input2).1 = .error "Approval token is not active" ∧
    ∃ row, consumeTokenRead st'.tokens (hash input2.approvalToken) = some row ∧
      row.status = "used" := by
  simp only [verifyAndConsume] at h
  rw [Prod.mk.injEq] at h
  obtain ⟨hchecks, hst'⟩ := h
  obtain ⟨row, hsnap, hactive, -⟩ := verifyChecks_ok_inversion hchecks
  cases hread : consumeTokenRead st.tokens (hash input.approvalToken) with
  | none => rw [consumeToken, hread] at hsnap; exact absurd hsnap (by simp)
  | some row0 =>
    rw [consumeToken, hread] at hsnap hst'
    simp only at hsnap hst'
    have heq : row0 = row := by injection hsnap
    rw [← heq] at hactive
    subst hst'
    have hmarked :
        consumeTokenRead (consumeTokenMark st.tokens row0.id now1)
          (hash input.approvalToken) =
        some { row0 with status := "used", usedAt := some now1 } := by
      rw [consumeTokenRead_mark, hread]
      simp [hactive]
    refine ⟨?_,
      ⟨{ row0 with status := "used", usedAt := some now1 }, by rw [htok]; exact hmarked, rfl⟩⟩
    simp only [verifyAndConsume, consumeToken, htok, hmarked]
    simp [verifyChecks]

/-- Witness for C2: a concrete store, a successful consumption, and the
failing identical retry. -/
theorem C2_approval_token_single_use_witness :
    verifyAndConsume (fun s => s) 1000
      ⟨[⟨"req1", "alice", "telegram.v2.chats", "ban_user", .high, "null", "approved", 2000⟩],
       [⟨"tok1", "req1", "secret-approval-token", "active", 2000, none⟩]⟩
      ⟨"secret-approval-token", ⟨"alice", [.admin], "tenant", "oidc"⟩,
        "telegram.v2.chats", "ban_user", .high, .null⟩ =
      (.ok "req1",
        ⟨[⟨"req1", "alice", "telegram.v2.chats", "ban_user", .high, "null", "approved", 2000⟩],
         [⟨"tok1", "req1", "secret-approval-token", "used", 2000, some 1000⟩]⟩) ∧
    (verifyAndConsume (fun s => s) 1500
      ⟨[⟨"req1", "alice", "telegram.v2.chats", "ban_user", .high, "null", "approved", 2000⟩],
       [⟨"tok1", "req1", "secret-approval-token", "used", 2000, some 1000⟩]⟩
      ⟨"secret-approval-token", ⟨"alice", [.admin], "tenant", "oidc"⟩,
        "telegram.v2.chats", "ban_user", .high, .null⟩).1 =
      .error "Approval token is not active" := by
  have h : verifyAndConsume (fun s => s) 1000
      ⟨[⟨"req1", "alice", "telegram.v2.chats", "ban_user", .high, "null", "approved", 2000⟩],
       [⟨"tok1", "req1", "secret-approval-token", "active", 2000, none⟩]⟩
      ⟨"secret-approval-token", ⟨"alice", [.admin], "tenant", "oidc"⟩,
        "telegram.v2.chats", "ban_user", .high, .null⟩ =
      (.ok "req1",
        ⟨[⟨"req1", "alice", "telegram.v2.chats", "ban_user", .high, "null", "approved", 2000⟩],
         [⟨"tok1", "req1", "secret-approval-token", "used", 2000, some 1000⟩]⟩) := by decide
  exact ⟨h, (C2_approval_token_single_use (fun s => s) 1000 1500 _ _ _ _ "req1" h rfl).1⟩

/-! ## C9: a failed verification still consumes the token -/

/-- C9 — Whenever the token hash resolves to a stored row whose status is
`active`, `verifyAndConsume` flips that row to `used` at the repository
before running any of the subsequent checks: whatever the verification
outcome, the resulting store is exactly the marked store, the row reads
back as `used`, and every future attempt with the same bearer token fails
with "Approval token is not active". -/
theorem C9_failed_verification_consumes_token (hash : String → String) (now : Nat)
    (st : ApprovalStore) (input : VerifyInput) (row : TokenRow)
    (hread : consumeTokenRead st.tokens (hash input.approvalToken) = some row)
    (hactive : row.status = "active") :
    (verifyAndConsume hash now st input).2 =
      { st with tokens := consumeTokenMark st.tokens row.id now } ∧
    consumeTokenRead (verifyAndConsume hash now st input).2.tokens
        (hash input.approvalToken) =
      some { row with status := "used", usedAt := some now } ∧
    ∀ (input2 : VerifyInput) (now2 : Nat), input2.approvalToken = input.approvalToken →
      (verifyAndConsume hash now2 (verifyAndConsume hash now st input).2 input2).1 =
        .error "Approval token is not active" := by
  have hstore : (verifyAndConsume hash now st input).2 =
      { st with tokens := consumeTokenMark st.tokens row.id now } := by
    simp [verifyAndConsume, consumeToken, hread]
  have hmarked :
      consumeTokenRead (consumeTokenMark st.tokens row.id now)
        (hash input.approvalToken) =
      some { row with status := "used", usedAt := some now } := by
    rw [consumeTokenRead_mark, hread]
    simp [hactive]
  refine ⟨hstore, by rw [hstore]; exact hmarked, ?_⟩
  intro input2 now2 htok
  rw [hstore]
  simp only [verifyAndConsume, consumeToken, htok, hmarked]
  simp [verifyChecks]

/-- Witness for C9: a verification that fails with a principal mismatch
nevertheless leaves the token row `used`, and the retry fails. -/
theorem C9_failed_verification_consumes_token_witness :
    (verifyAndConsume (fun s => s) 1000
      ⟨[⟨"req1", "alice", "telegram.v2.chats", "ban_user", .high, "null", "approved", 2000⟩],
       [⟨"tok1", "req1", "secret-approval-token", "active", 2000, none⟩]⟩
      ⟨"secret-approval-token", ⟨"mallory", [.admin], "tenant", "oidc"⟩,
        "telegram.v2.chats", "ban_user", .high, .null⟩).1 =
      .error "Approval token principal mismatch" ∧
    consumeTokenRead
      (verifyAndConsume (fun s => s) 1000
        ⟨[⟨"req1", "alice", "telegram.v2.chats", "ban_user", .high, "null", "approved", 2000⟩],
         [⟨"tok1", "req1", "secret-approval-token", "active", 2000, none⟩]⟩
        ⟨"secret-approval-token", ⟨"mallory", [.admin], "tenant", "oidc"⟩,
          "telegram.v2.chats", "ban_user", .high, .null⟩).2.tokens
      "secret-approval-token" =
      some ⟨"tok1", "req1", "secret-approval-token", "used", 2000, some 1000⟩ := by
  refine ⟨by decide, ?_⟩
  exact (C9_failed_verification_consumes_token (fun s => s) 1000
    ⟨[⟨"req1", "alice", "telegram.v2.chats", "ban_user", .high, "null", "approved", 2000⟩],
     [⟨"tok1", "req1", "secret-approval-token", "active", 2000, none⟩]⟩
    ⟨"secret-approval-token", ⟨"mallory", [.admin], "tenant", "oidc"⟩,
      "telegram.v2.chats", "ban_user", .high, .null⟩
    ⟨"tok1", "req1", "secret-approval-token", "active", 2000, none⟩
    (by decide) rfl).2.1

/-! ## C4: the SELECT-then-UPDATE of `consumeToken` is not atomic -/

/-- C4 — Counterexample to "at most one concurrent `verifyAndConsume`
attempt observes status `active`": under the schedule read-A, read-B,
mark-A, mark-B (each half of `consumeToken` is its own awaited query), both
attempts' SELECTs observe the `active` row, and both verification chains
then succeed on their snapshots — a double spend the storage layer was
required to prevent. -/
theorem C4_interleaved_double_consume_both_succeed :
    (runConsumes "secret-approval-token" 1000 [.A, .B, .A, .B]
        (initialTwoConsume
          ⟨[⟨"req1", "alice", "telegram.v2.chats", "ban_user", .high, "null", "approved",
              2000⟩],
           [⟨"tok1", "req1", "secret-approval-token", "active", 2000, none⟩]⟩)).attemptA.snapshot =
      some (some ⟨"tok1", "req1", "secret-approval-token", "active", 2000, none⟩) ∧
    (runConsumes "secret-approval-token" 1000 [.A, .B, .A, .B]
        (initialTwoConsume
          ⟨[⟨"req1", "alice", "telegram.v2.chats", "ban_user", .high, "null", "approved",
              2000⟩],
           [⟨"tok1", "req1", "secret-approval-token", "active", 2000, none⟩]⟩)).attemptB.snapshot =
      some (some ⟨"tok1", "req1", "secret-approval-token", "active", 2000, none⟩) ∧
    verifyChecks (fun s => s) 1000
      (runConsumes "secret-approval-token" 1000 [.A, .B, .A, .B]
        (initialTwoConsume
          ⟨[⟨"req1", "alice", "telegram.v2.chats", "ban_user", .high, "null", "approved",
              2000⟩],
           [⟨"tok1", "req1", "secret-approval-token", "active", 2000, none⟩]⟩)).store
      ⟨"secret-approval-token", ⟨"alice", [.admin], "tenant", "oidc"⟩,
        "telegram.v2.chats", "ban_user", .high, .null⟩
      (some ⟨"tok1", "req1", "secret-approval-token", "active", 2000, none⟩) =
      .ok "req1" := by
  decide


/-! ## Order lemmas for the canonical key sort -/

theorem charsLe_total : ∀ a b : List Char, charsLe a b = true ∨ charsLe b a = true := by
  intro a
  induction a with
  | nil => intro b; left; rfl
  | cons x xs ih =>
    intro b
    cases b with
    | nil => right; rfl
    | cons y ys =>
      simp only [charsLe]
      rcases Nat.lt_trichotomy x.toNat y.toNat with h | h | h
      · left; simp [h]
      · have h1 : ¬ x.toNat < y.toNat := by omega
        have h2 : ¬ y.toNat < x.toNat := by omega
        rcases ih ys with hr | hr
        · left; simp [h1, h2, hr]
        · right; simp [h1, h2, hr]
      · right; simp [h]

theorem charsLe_trans : ∀ a b c : List Char,
    charsLe a b = true → charsLe b c = true → charsLe a c = true := by
  intro a
  induction a with
  | nil => intro b c _ _; rfl
  | cons x xs ih =>
    intro b c hab hbc
    cases b with
    | nil => simp [charsLe] at hab
    | cons y ys =>
      cases c with
      | nil => simp [charsLe] at hbc
      | cons z zs =>
        simp only [charsLe] at hab hbc ⊢
        split_ifs at hab hbc ⊢ <;>
          first
            | rfl
            | omega
            | exact ih ys zs hab hbc

theorem char_eq_of_toNat_eq {x y : Char} (h : x.toNat = y.toNat) : x = y := by
  have hval : x.val = y.val := by
    unfold Char.toNat at h
    exact UInt32.toNat.inj h
  exact Char.eq_of_val_eq hval

theorem string_eq_of_data {a b : String} (h : a.data = b.data) : a = b := by
  cases a; cases b; simp_all

theorem charsLe_antisymm : ∀ a b : List Char,
    charsLe a b = true → charsLe b a = true → a = b := by
  intro a
  induction a with
  | nil =>
    intro b _ hba
    cases b with
    | nil => rfl
    | cons y ys => simp [charsLe] at hba
  | cons x xs ih =>
    intro b hab hba
    cases b with
    | nil => simp [charsLe] at hab
    | cons y ys =>
      simp only [charsLe] at hab hba
      by_cases h1 : x.toNat < y.toNat
      · rw [if_neg (by omega), if_pos h1] at hba
        exact absurd hba (by simp)
      · by_cases h2 : y.toNat < x.toNat
        · rw [if_neg h1, if_pos h2] at hab
          exact absurd hab (by simp)
        · rw [if_neg h1, if_neg h2] at hab
          rw [if_neg h2, if_neg h1] at hba
          rw [char_eq_of_toNat_eq (show x.toNat = y.toNat by omega), ih ys hab hba]

instance : IsTotal (String × String) keyLE :=
  ⟨fun a b => by
    rcases charsLe_total a.1.data b.1.data with h | h
    · exact Or.inl h
    · exact Or.inr h⟩

instance : IsTrans (String × String) keyLE :=
  ⟨fun a b c hab hbc => charsLe_trans a.1.data b.1.data c.1.data hab hbc⟩

/-- Strict companion of `keyLE` used only to compare sorted outputs. -/
def keyLT (a b : String × String) : Prop := strLe b.1 a.1 = false

instance : DecidableRel keyLT := fun a b => inferInstanceAs (Decidable (_ = false))

instance : IsAntisymm (String × String) keyLT :=
  ⟨fun a b h1 h2 => by
    rcases charsLe_total a.1.data b.1.data with h | h
    · exact absurd h (by simpa [keyLT, strLe] using h2)
    · exact absurd h (by simpa [keyLT, strLe] using h1)⟩

theorem sorted_keyLT_of_sorted_nodup {l : List (String × String)}
    (hs : l.Sorted keyLE) (hn : (l.map Prod.fst).Nodup) : l.Sorted keyLT := by
  have hne : l.Pairwise fun a b => a.1 ≠ b.1 := by
    rw [List.Nodup, List.pairwise_map] at hn
    exact hn
  refine (hs.and hne).imp ?_
  rintro a b ⟨hle, hne1⟩
  cases hba : strLe b.1 a.1 with
  | false => exact hba
  | true =>
    exact absurd
      (string_eq_of_data (charsLe_antisymm a.1.data b.1.data hle hba))
      hne1

/-- Two permuted pair lists with duplicate-free keys have the same key-sorted
arrangement. -/
theorem sortKV_eq_of_perm {l l' : List (String × String)} (hp : l.Perm l')
    (hn : (l.map Prod.fst).Nodup) : sortKV l = sortKV l' := by
  have hperm : (sortKV l).Perm (sortKV l') :=
    (List.perm_insertionSort keyLE l).trans (hp.trans (List.perm_insertionSort keyLE l').symm)
  have hn1 : ((sortKV l).map Prod.fst).Nodup :=
    (((List.perm_insertionSort keyLE l).map Prod.fst).nodup_iff).mpr hn
  have hn2 : ((sortKV l').map Prod.fst).Nodup :=
    (((List.perm_insertionSort keyLE l').map Prod.fst).nodup_iff).mpr
      (((hp.map Prod.fst).nodup_iff).mp hn)
  exact List.eq_of_perm_of_sorted hperm
    (sorted_keyLT_of_sorted_nodup (List.sorted_insertionSort keyLE l) hn1)
    (sorted_keyLT_of_sorted_nodup (List.sorted_insertionSort keyLE l') hn2)


/-! ## Serialization is invariant under key permutation -/

def serPair (e : String × Json) : String × String := (e.1, stableSerialize e.2)

theorem serializeList_eq_map : ∀ l : JsonList,
    serializeList l = l.toList.map stableSerialize
  | .nil => rfl
  | .cons a t => by simp [serializeList, JsonList.toList, serializeList_eq_map t]

theorem serializeEntries_eq_map : ∀ l : JsonEntries,
    serializeEntries l = l.toList.map serPair
  | .nil => rfl
  | .cons k v t => by
      simp [serializeEntries, JsonEntries.toList, serializeEntries_eq_map t, serPair]

theorem sizeOf_mem_JsonList : ∀ {l : JsonList} {x : Json}, x ∈ l.toList →
    sizeOf x < sizeOf l
  | .nil, x, h => absurd h (by simp [JsonList.toList])
  | .cons a t, x, h => by
      rcases (by simpa [JsonList.toList] using h : x = a ∨ x ∈ t.toList) with rfl | h2
      · simp only [JsonList.cons.sizeOf_spec]
        omega
      · have := sizeOf_mem_JsonList h2
        simp only [JsonList.cons.sizeOf_spec]
        omega

theorem sizeOf_mem_JsonEntries : ∀ {l : JsonEntries} {k : String} {v : Json},
    (k, v) ∈ l.toList → sizeOf v < sizeOf l
  | .nil, k, v, h => absurd h (by simp [JsonEntries.toList])
  | .cons k0 v0 t, k, v, h => by
      rcases (by simpa [JsonEntries.toList, Prod.mk.injEq] using h :
          (k = k0 ∧ v = v0) ∨ (k, v) ∈ t.toList) with ⟨-, rfl⟩ | h2
      · simp only [JsonEntries.cons.sizeOf_spec]
        omega
      · have := sizeOf_mem_JsonEntries h2
        simp only [JsonEntries.cons.sizeOf_spec]
        omega

theorem WFJsonList_mem : ∀ {l : JsonList} {x : Json}, WFJsonList l = true →
    x ∈ l.toList → WFJson x = true
  | .nil, x, _, h => absurd h (by simp [JsonList.toList])
  | .cons a t, x, hwf, h => by
      rw [WFJsonList, Bool.and_eq_true] at hwf
      rcases (by simpa [JsonList.toList] using h : x = a ∨ x ∈ t.toList) with rfl | h2
      · exact hwf.1
      · exact WFJsonList_mem hwf.2 h2

theorem WFJsonEntries_mem : ∀ {l : JsonEntries} {k : String} {v : Json},
    WFJsonEntries l = true → (k, v) ∈ l.toList → WFJson v = true
  | .nil, k, v, _, h => absurd h (by simp [JsonEntries.toList])
  | .cons k0 v0 t, k, v, hwf, h => by
      rw [WFJsonEntries, Bool.and_eq_true] at hwf
      rcases (by simpa [JsonEntries.toList, Prod.mk.injEq] using h :
          (k = k0 ∧ v = v0) ∨ (k, v) ∈ t.toList) with ⟨-, rfl⟩ | h2
      · exact hwf.1
      · exact WFJsonEntries_mem hwf.2 h2

theorem serializeList_congr : ∀ {l1 l2 : JsonList}, PermEquivList l1 l2 →
    (∀ x y, x ∈ l1.toList → PermEquiv x y → stableSerialize x = stableSerialize y) →
    serializeList l1 = serializeList l2
  | .nil, l2, h, _ => by cases h; rfl
  | .cons a t, l2, h, H => by
      cases h with
      | cons hxy ht =>
        simp only [serializeList]
        rw [H _ _ (by simp [JsonList.toList]) hxy,
          serializeList_congr ht
            (fun x y hx hxy2 => H x y (by simp [JsonList.toList, hx]) hxy2)]

theorem serializeEntries_congr : ∀ {l1 l2 : JsonEntries}, PermEquivEntries l1 l2 →
    (∀ k v y, (k, v) ∈ l1.toList → PermEquiv v y → stableSerialize v = stableSerialize y) →
    serializeEntries l1 = serializeEntries l2
  | .nil, l2, h, _ => by cases h; rfl
  | .cons k0 v0 t, l2, h, H => by
      cases h with
      | cons hv ht =>
        simp only [serializeEntries]
        rw [H k0 _ _ (by simp [JsonEntries.toList]) hv,
          serializeEntries_congr ht
            (fun k v y hkv hvy => H k v y (by simp [JsonEntries.toList, hkv]) hvy)]

theorem serialize_permEquiv_aux : ∀ (n : Nat) (a b : Json), sizeOf a ≤ n →
    WFJson a = true → PermEquiv a b → stableSerialize a = stableSerialize b := by
  intro n
  induction n with
  | zero =>
    intro a b ha
    exfalso
    cases a <;> simp at ha
  | succ n ih =>
    intro a b hsz hwf h
    cases h with
    | null => rfl
    | bool b => rfl
    | num m => rfl
    | str s => rfl
    | arr hl =>
      rename_i l1 l2
      have hls : serializeList l1 = serializeList l2 := by
        apply serializeList_congr hl
        intro x y hx hxy
        have hb := sizeOf_mem_JsonList hx
        have ha : sizeOf (Json.arr l1) = 1 + sizeOf l1 := by
          simp only [Json.arr.sizeOf_spec]
        refine ih x y (by omega) ?_ hxy
        exact WFJsonList_mem (by simpa [WFJson] using hwf) hx
      simp [stableSerialize, hls]
    | obj hperm hpe =>
      rename_i l1 l1' l2
      have hnodup : (l1.toList.map Prod.fst).Nodup := by
        simp only [WFJson, Bool.and_eq_true, decide_eq_true_eq] at hwf
        exact hwf.1
      have hwfe : WFJsonEntries l1 = true := by
        simp only [WFJson, Bool.and_eq_true] at hwf
        exact hwf.2
      have hsize : sizeOf (Json.obj l1) = 1 + sizeOf l1 := by
        simp only [Json.obj.sizeOf_spec]
      have heq12 : serializeEntries l1' = serializeEntries l2 := by
        apply serializeEntries_congr hpe
        intro k v y hkv hvy
        have hmem : (k, v) ∈ l1.toList := hperm.symm.subset hkv
        have hb := sizeOf_mem_JsonEntries hmem
        exact ih v y (by omega) (WFJsonEntries_mem hwfe hmem) hvy
      have hperm' : (serializeEntries l1).Perm (serializeEntries l1') := by
        rw [serializeEntries_eq_map, serializeEntries_eq_map]
        exact hperm.map serPair
      have hnodup' : ((serializeEntries l1).map Prod.fst).Nodup := by
        rw [serializeEntries_eq_map, List.map_map]
        exact hnodup
      have hsort : sortKV (serializeEntries l1) = sortKV (serializeEntries l2) := by
        rw [← heq12]
        exact sortKV_eq_of_perm hperm' hnodup'
      simp [stableSerialize, hsort]

/-- Canonical serialization is invariant under (deep) permutation of object
keys, for values with duplicate-free keys. -/
theorem stableSerialize_eq_of_permEquiv {a b : Json} (hwf : WFJson a = true)
    (h : PermEquiv a b) : stableSerialize a = stableSerialize b :=
  serialize_permEquiv_aux (sizeOf a) a b le_rfl hwf h


/-! ## C3: approval is bound to the canonical payload -/

theorem verifyChecks_payload_congr (hash : String → String) (now : Nat)
    (st : ApprovalStore) (input : VerifyInput) (q : Json)
    (hser : hash (stableSerialize input.payload) = hash (stableSerialize q)) :
    ∀ snap, verifyChecks hash now st input snap =
      verifyChecks hash now st { input with payload := q } snap
  | none => rfl
  | some row => by
      simp only [verifyChecks, hser]

/-- C3 — (1) For every payload `q` that permutes the object keys of the
payload `p` presented at hashing time (arrays kept in order, keys unique),
the canonical hash is unchanged and `verifyAndConsume` behaves identically —
in particular a payload with reordered keys passes the payload check
whenever the original does.  (2) When the canonical serializations differ
(and sha256 is collision-free on them, modelled as injectivity), a call
that would otherwise succeed fails with exactly the payload-mismatch error,
even though token, tool, operation and risk level all match. -/
theorem C3_canonical_payload_binding :
    (∀ (hash : String → String) (now : Nat) (st : ApprovalStore) (input : VerifyInput)
        (q : Json), WFJson input.payload = true → PermEquiv input.payload q →
      hash (stableSerialize input.payload) = hash (stableSerialize q) ∧
      verifyAndConsume hash now st input =
        verifyAndConsume hash now st { input with payload := q }) ∧
    (∀ (hash : String → String) (now : Nat) (st : ApprovalStore) (input : VerifyInput)
        (q : Json) (rid : String),
      Function.Injective hash →
      (verifyAndConsume hash now st input).1 = .ok rid →
      stableSerialize q ≠ stableSerialize input.payload →
      (verifyAndConsume hash now st { input with payload := q }).1 =
        .error "Approval token payload mismatch") := by
  constructor
  · intro hash now st input q hwf hpe
    have hser : stableSerialize input.payload = stableSerialize q :=
      stableSerialize_eq_of_permEquiv hwf hpe
    refine ⟨by rw [hser], ?_⟩
    have hc := verifyChecks_payload_congr hash now
      ((consumeToken st (hash input.approvalToken) now).2) input q (by rw [hser])
      ((consumeToken st (hash input.approvalToken) now).1)
    simp only [verifyAndConsume]
    exact congrArg₂ Prod.mk hc rfl
  · intro hash now st input q rid hinj hok hne
    have hok' : verifyChecks hash now (consumeToken st (hash input.approvalToken) now).2
        input (consumeToken st (hash input.approvalToken) now).1 = .ok rid := hok
    obtain ⟨row, hsnap, hactive, hexp, req, hreq, happr, hprin, htool, hop, hrisk, hpay,
      hreqexp, -⟩ := verifyChecks_ok_inversion hok'
    show verifyChecks hash now (consumeToken st (hash input.approvalToken) now).2
        { input with payload := q } (consumeToken st (hash input.approvalToken) now).1 =
      .error "Approval token payload mismatch"
    rw [hsnap]
    simp only [verifyChecks]
    rw [if_neg (by simp [hactive]), if_neg hexp]
    simp only [hreq]
    rw [if_neg (by simp [happr]), if_neg (by simp [hprin]),
      if_neg (by push_neg; exact ⟨htool, hop⟩), if_neg (by simp [hrisk]),
      if_pos (by rw [hpay]; exact fun hc => hne (hinj hc).symm)]

/-- Witness for C3 at Scenario C of the spec: payload `(chatId: 5, userId: 9)`
against its key-swapped form, and a payload with a changed value. -/
theorem C3_canonical_payload_binding_witness :
    verifyAndConsume (fun s => s) 1000
      ⟨[⟨"req1", "alice", "telegram.v2.chats", "ban_user", .high,
          "\x7b\"chatId\":5,\"userId\":9\x7d", "approved", 2000⟩],
       [⟨"tok1", "req1", "secret-approval-token", "active", 2000, none⟩]⟩
      ⟨"secret-approval-token", ⟨"alice", [.admin], "tenant", "oidc"⟩,
        "telegram.v2.chats", "ban_user", .high,
        .obj (.cons "chatId" (.num 5) (.cons "userId" (.num 9) .nil))⟩ =
      verifyAndConsume (fun s => s) 1000
        ⟨[⟨"req1", "alice", "telegram.v2.chats", "ban_user", .high,
            "\x7b\"chatId\":5,\"userId\":9\x7d", "approved", 2000⟩],
         [⟨"tok1", "req1", "secret-approval-token", "active", 2000, none⟩]⟩
        ⟨"secret-approval-token", ⟨"alice", [.admin], "tenant", "oidc"⟩,
          "telegram.v2.chats", "ban_user", .high,
          .obj (.cons "userId" (.num 9) (.cons "chatId" (.num 5) .nil))⟩ ∧
    (verifyAndConsume (fun s => s) 1000
      ⟨[⟨"req1", "alice", "telegram.v2.chats", "ban_user", .high,
          "\x7b\"chatId\":5,\"userId\":9\x7d", "approved", 2000⟩],
       [⟨"tok1", "req1", "secret-approval-token", "active", 2000, none⟩]⟩
      ⟨"secret-approval-token", ⟨"alice", [.admin], "tenant", "oidc"⟩,
        "telegram.v2.chats", "ban_user", .high,
        .obj (.cons "chatId" (.num 6) (.cons "userId" (.num 9) .nil))⟩).1 =
      .error "Approval token payload mismatch" := by
  constructor
  · exact (C3_canonical_payload_binding.1 (fun s => s) 1000
      ⟨[⟨"req1", "alice", "telegram.v2.chats", "ban_user", .high,
          "\x7b\"chatId\":5,\"userId\":9\x7d", "approved", 2000⟩],
       [⟨"tok1", "req1", "secret-approval-token", "active", 2000, none⟩]⟩
      ⟨"secret-approval-token", ⟨"alice", [.admin], "tenant", "oidc"⟩,
        "telegram.v2.chats", "ban_user", .high,
        .obj (.cons "chatId" (.num 5) (.cons "userId" (.num 9) .nil))⟩
      (.obj (.cons "userId" (.num 9) (.cons "chatId" (.num 5) .nil)))
      (by decide)
      (@PermEquiv.obj
        (.cons "chatId" (.num 5) (.cons "userId" (.num 9) .nil))
        (.cons "userId" (.num 9) (.cons "chatId" (.num 5) .nil))
        (.cons "userId" (.num 9) (.cons "chatId" (.num 5) .nil))
        (by decide)
        (PermEquivEntries.cons (PermEquiv.num 9)
          (PermEquivEntries.cons (PermEquiv.num 5) PermEquivEntries.nil)))).2
  · exact C3_canonical_payload_binding.2 (fun s => s) 1000
      ⟨[⟨"req1", "alice", "telegram.v2.chats", "ban_user", .high,
          "\x7b\"chatId\":5,\"userId\":9\x7d", "approved", 2000⟩],
       [⟨"tok1", "req1", "secret-approval-token", "active", 2000, none⟩]⟩
      ⟨"secret-approval-token", ⟨"alice", [.admin], "tenant", "oidc"⟩,
        "telegram.v2.chats", "ban_user", .high,
        .obj (.cons "chatId" (.num 5) (.cons "userId" (.num 9) .nil))⟩
      (.obj (.cons "chatId" (.num 6) (.cons "userId" (.num 9) .nil)))
      "req1" (fun a b hc => hc) (by decide) (by decide)


/-! ## Audit-count and idempotency lemmas -/

theorem countExec_append (l1 l2 : List AuditEvent) :
    countExec (l1 ++ l2) = countExec l1 + countExec l2 := by
  simp [countExec, List.filter_append]

theorem idemTryGet_map_replace (now1 now2 ttl : Nat) (k : String) (resp : Json) :
    ∀ idem : List IdemRecord, (∃ r ∈ idem, r.key = k) → now2 < now1 + ttl * 1000 →
    idemTryGet
      (idem.map fun r =>
        if r.key = k then { r with response := resp, expiresAt := now1 + ttl * 1000 } else r)
      now2 k = some resp := by
  intro idem
  induction idem with
  | nil => intro hex _; simp at hex
  | cons r t ih =>
    intro hex hlt
    by_cases hr : r.key = k
    · simp [idemTryGet, List.find?_cons, hr, hlt]
    · have hex' : ∃ x ∈ t, x.key = k := by
        rcases hex with ⟨x, hx, hxk⟩
        rcases List.mem_cons.mp hx with rfl | hx2
        · exact absurd hxk hr
        · exact ⟨x, hx2, hxk⟩
      have := ih hex' hlt
      simpa [idemTryGet, List.find?_cons, hr] using this

theorem idemTryGet_append_new (now1 now2 ttl : Nat) (k op : String) (resp : Json) :
    ∀ idem : List IdemRecord, (∀ r ∈ idem, r.key ≠ k) → now2 < now1 + ttl * 1000 →
    idemTryGet
      (idem ++ [{ key := k, operation := op, response := resp,
                  expiresAt := now1 + ttl * 1000 }])
      now2 k = some resp := by
  intro idem
  induction idem with
  | nil => intro _ hlt; simp [idemTryGet, List.find?_cons, hlt]
  | cons r t ih =>
    intro hall hlt
    have hr : r.key ≠ k := hall r (by simp)
    have := ih (fun x hx => hall x (by simp [hx])) hlt
    simpa [idemTryGet, List.find?_cons, hr] using this

/-- A cache entry written by `save` is returned by `tryGet` for the same key
while unexpired. -/
theorem idemTryGet_save (idem : List IdemRecord) (now1 now2 ttl : Nat) (k op : String)
    (resp : Json) (h : now2 < now1 + ttl * 1000) :
    idemTryGet (idemSave idem now1 k op resp ttl) now2 k = some resp := by
  unfold idemSave
  split
  · rename_i hany
    refine idemTryGet_map_replace now1 now2 ttl k resp idem ?_ h
    rcases List.any_eq_true.mp hany with ⟨r, hr, hrk⟩
    exact ⟨r, hr, by simpa using hrk⟩
  · rename_i hany
    refine idemTryGet_append_new now1 now2 ttl k op resp idem ?_ h
    intro r hr
    have := List.any_eq_false.mp (Bool.of_not_eq_true hany) r hr
    simpa using this


/-- Characterization of an `executeSecured` call whose domain operation was
actually invoked (the call counter advanced): exactly one `tool_execute`
audit event is appended; on a thrown domain error the error is re-thrown
unchanged, the idempotency store is untouched, and the one event has
`allowed = false` with the error in its metadata; on success the result
envelope is returned and cached iff a key was supplied. -/
theorem executeSecured_reached (cfg : SecConfig) (permissions : List ToolPermission)
    (hash : String → String) (now : Nat) (execute : Except String Json)
    (st : PipeState) (input : SecInput) (res : Except String Json) (st' : PipeState)
    (h : executeSecured cfg permissions hash now execute st input = (res, st'))
    (hcalls : st'.domainCalls = st.domainCalls + 1) :
    countExec st'.auditLog = countExec st.auditLog + 1 ∧
    (∀ e, execute = .error e → res = .error e ∧ st'.idem = st.idem ∧
      ∃ evt pre, st'.auditLog = st.auditLog ++ pre ++ [evt] ∧ countExec pre = 0 ∧
        evt.action = "tool_execute" ∧ evt.allowed = false ∧
        ("error", Json.str e) ∈ evt.metadata) ∧
    (∀ r, execute = .ok r → ∃ resp, res = .ok resp ∧
      st'.idem = (match input.idempotencyKey with
        | some k => idemSave st.idem now k (input.tool ++ "." ++ input.operation) resp
        | none => st.idem)) := by
  simp only [executeSecured] at h
  split at h
  · rw [Prod.mk.injEq] at h
    rw [← h.2] at hcalls
    simp at hcalls
  · split at h
    · rw [Prod.mk.injEq] at h
      rw [← h.2] at hcalls
      simp at hcalls
    · split at h
      · rw [Prod.mk.injEq] at h
        rw [← h.2] at hcalls
        simp at hcalls
      · split at h
        · split at h
          · rw [Prod.mk.injEq] at h
            rw [← h.2] at hcalls
            simp at hcalls
          · split at h
            · rw [Prod.mk.injEq] at h
              rw [← h.2] at hcalls
              simp at hcalls
            · split at h
              · -- approval consumed, domain operation succeeded
                rw [Prod.mk.injEq] at h
                refine ⟨?_, ?_, ?_⟩
                · rw [← h.2]
                  split <;> simp [countExec_append, countExec]
                · intro e he
                  simp at he
                · intro r hr
                  injection hr with h2
                  subst h2
                  refine ⟨_, h.1.symm, ?_⟩
                  rw [← h.2]
                  split <;> simp
              · -- approval consumed, domain operation threw
                rw [Prod.mk.injEq] at h
                refine ⟨?_, ?_, ?_⟩
                · rw [← h.2]
                  simp [countExec_append, countExec]
                · intro e he
                  injection he with h2
                  subst h2
                  refine ⟨h.1.symm, by rw [← h.2], ?_⟩
                  rw [← h.2]
                  refine ⟨_, [_], rfl, by simp [countExec], rfl, rfl, by simp⟩
                · intro r hr
                  simp at hr
        · split at h
          · -- approval not required, domain operation succeeded
            rw [Prod.mk.injEq] at h
            refine ⟨?_, ?_, ?_⟩
            · rw [← h.2]
              split <;> simp [countExec_append, countExec]
            · intro e he
              simp at he
            · intro r hr
              injection hr with h2
              subst h2
              refine ⟨_, h.1.symm, ?_⟩
              rw [← h.2]
              split <;> simp
          · -- approval not required, domain operation threw
            rw [Prod.mk.injEq] at h
            refine ⟨?_, ?_, ?_⟩
            · rw [← h.2]
              simp [countExec_append, countExec]
            · intro e he
              injection he with h2
              subst h2
              refine ⟨h.1.symm, by rw [← h.2], ?_⟩
              rw [← h.2]
              refine ⟨_, [_], rfl, by simp [countExec], rfl, rfl, by simp⟩
            · intro r hr
              simp at hr


/-- Characterization of an `executeDomainTool` call whose Bot-API call was
actually made: on success exactly one `tool_execute` audit event is
appended, but on a thrown Bot-API error the error propagates with **no**
`tool_execute` event and no idempotency write — there is no catch block on
this path. -/
theorem executeDomainTool_reached (cfg : PolicyConfig) (permissions : List ToolPermission)
    (table : List BotMethodSpec) (validate : String → Json → Except String Unit)
    (resolveToken : Except String String) (callApi : Except String Json) (now : Nat)
    (st : BotState) (family : BotToolFamily) (request : BotRequest) (principal : Principal)
    (res : Except String Json) (st' : BotState)
    (h : TelegramBotService.executeDomainTool cfg permissions table validate resolveToken
      callApi now st family request principal = (res, st'))
    (hcalls : st'.domainCalls = st.domainCalls + 1) :
    (∀ r, callApi = .ok r → countExec st'.auditLog = countExec st.auditLog + 1) ∧
    (∀ e, callApi = .error e → res = .error e ∧ st'.idem = st.idem ∧
      countExec st'.auditLog = countExec st.auditLog) := by
  simp only [TelegramBotService.executeDomainTool] at h
  split at h
  · rw [Prod.mk.injEq] at h
    rw [← h.2] at hcalls
    simp at hcalls
  · split at h
    · rw [Prod.mk.injEq] at h
      rw [← h.2] at hcalls
      simp at hcalls
    · split at h
      · rw [Prod.mk.injEq] at h
        rw [← h.2] at hcalls
        simp at hcalls
      · split at h
        · rw [Prod.mk.injEq] at h
          rw [← h.2] at hcalls
          simp at hcalls
        · split at h
          · split at h
            · rw [Prod.mk.injEq] at h
              rw [← h.2] at hcalls
              simp at hcalls
            · split at h
              · rw [Prod.mk.injEq] at h
                rw [← h.2] at hcalls
                simp at hcalls
              · split at h
                · -- key supplied, cache miss, Bot API error
                  rw [Prod.mk.injEq] at h
                  constructor
                  · intro r hr
                    simp at hr
                  · intro e he
                    injection he with h2
                    subst h2
                    exact ⟨h.1.symm, by rw [← h.2],
                      by rw [← h.2]; simp [countExec_append, countExec]⟩
                · -- key supplied, cache miss, Bot API success
                  rw [Prod.mk.injEq] at h
                  constructor
                  · intro r hr
                    rw [← h.2]
                    simp [countExec_append, countExec]
                  · intro e he
                    simp at he
          · split at h
            · rw [Prod.mk.injEq] at h
              rw [← h.2] at hcalls
              simp at hcalls
            · split at h
              · -- no key, Bot API error
                rw [Prod.mk.injEq] at h
                constructor
                · intro r hr
                  simp at hr
                · intro e he
                  injection he with h2
                  subst h2
                  exact ⟨h.1.symm, by rw [← h.2],
                    by rw [← h.2]; simp [countExec_append, countExec]⟩
              · -- no key, Bot API success
                rw [Prod.mk.injEq] at h
                constructor
                · intro r hr
                  rw [← h.2]
                  simp [countExec_append, countExec]
                · intro e he
                  simp at he


/-! ## C1: tool_execute auditing around the domain call -/

/-- C1 (amended) — On the v2 pipeline (`executeSecured`), every invocation
that reaches the domain operation emits exactly one `tool_execute` audit
event whether the operation succeeds or throws; on failure the event has
`allowed = false` with the error serialized into its metadata, the original
error is re-thrown unchanged, and the idempotency store is not written.  On
the Bot-API path (`executeDomainTool`), one `tool_execute` event is emitted
on success, but a thrown domain call propagates unchanged with **no**
`tool_execute` event (and still no idempotency write): the failure half of
the original claim holds only on the v2 pipeline. -/
theorem C1_tool_execute_audit :
    (∀ (cfg : SecConfig) (permissions : List ToolPermission) (hash : String → String)
        (now : Nat) (execute : Except String Json) (st : PipeState) (input : SecInput)
        (res : Except String Json) (st' : PipeState),
      executeSecured cfg permissions hash now execute st input = (res, st') →
      st'.domainCalls = st.domainCalls + 1 →
      countExec st'.auditLog = countExec st.auditLog + 1 ∧
      (∀ e, execute = .error e → res = .error e ∧ st'.idem = st.idem ∧
        ∃ evt pre, st'.auditLog = st.auditLog ++ pre ++ [evt] ∧ countExec pre = 0 ∧
          evt.action = "tool_execute" ∧ evt.allowed = false ∧
          ("error", Json.str e) ∈ evt.metadata)) ∧
    (∀ (cfg : PolicyConfig) (permissions : List ToolPermission) (table : List BotMethodSpec)
        (validate : String → Json → Except String Unit) (resolveToken : Except String String)
        (callApi : Except String Json) (now : Nat) (st : BotState) (family : BotToolFamily)
        (request : BotRequest) (principal : Principal) (res : Except String Json)
        (st' : BotState),
      TelegramBotService.executeDomainTool cfg permissions table validate resolveToken
        callApi now st family request principal = (res, st') →
      st'.domainCalls = st.domainCalls + 1 →
      (∀ r, callApi = .ok r → countExec st'.auditLog = countExec st.auditLog + 1) ∧
      (∀ e, callApi = .error e → res = .error e ∧ st'.idem = st.idem ∧
        countExec st'.auditLog = countExec st.auditLog)) := by
  constructor
  · intro cfg permissions hash now execute st input res st' h hcalls
    have hm := executeSecured_reached cfg permissions hash now execute st input res st' h hcalls
    exact ⟨hm.1, hm.2.1⟩
  · intro cfg permissions table validate resolveToken callApi now st family request principal
      res st' h hcalls
    exact executeDomainTool_reached cfg permissions table validate resolveToken callApi now
      st family request principal res st' h hcalls

/-- Counterexample to C1 as stated: a Bot-API invocation that reaches the
domain call (the call counter advances to 1) and whose domain operation
throws emits **zero** `tool_execute` audit events, not exactly one. -/
theorem C1_bot_failure_emits_no_execute_event :
    (TelegramBotService.executeDomainTool ⟨.allow, [.owner, .admin]⟩ [] []
      (fun _ _ => .ok ()) (.ok "bot-token") (.error "Telegram API failure") 1000
      ⟨[], [], 0⟩ .raw
      ⟨"acct", "call", .obj (.cons "method" (.str "sendMessage") .nil), some "key-1", false⟩
      ⟨"root", [.owner], "tenant", "local"⟩).1 = .error "Telegram API failure" ∧
    (TelegramBotService.executeDomainTool ⟨.allow, [.owner, .admin]⟩ [] []
      (fun _ _ => .ok ()) (.ok "bot-token") (.error "Telegram API failure") 1000
      ⟨[], [], 0⟩ .raw
      ⟨"acct", "call", .obj (.cons "method" (.str "sendMessage") .nil), some "key-1", false⟩
      ⟨"root", [.owner], "tenant", "local"⟩).2.domainCalls = 1 ∧
    countExec (TelegramBotService.executeDomainTool ⟨.allow, [.owner, .admin]⟩ [] []
      (fun _ _ => .ok ()) (.ok "bot-token") (.error "Telegram API failure") 1000
      ⟨[], [], 0⟩ .raw
      ⟨"acct", "call", .obj (.cons "method" (.str "sendMessage") .nil), some "key-1", false⟩
      ⟨"root", [.owner], "tenant", "local"⟩).2.auditLog = 0 ∧
    (TelegramBotService.executeDomainTool ⟨.allow, [.owner, .admin]⟩ [] []
      (fun _ _ => .ok ()) (.ok "bot-token") (.error "Telegram API failure") 1000
      ⟨[], [], 0⟩ .raw
      ⟨"acct", "call", .obj (.cons "method" (.str "sendMessage") .nil), some "key-1", false⟩
      ⟨"root", [.owner], "tenant", "local"⟩).2.idem = [] := by
  decide

/-- Witness for C1 at a concrete failing v2 invocation. -/
theorem C1_tool_execute_audit_witness :
    countExec ((executeSecured ⟨⟨.allow, [.owner, .admin]⟩, defaultApprovalsConfig⟩ []
      (fun s => s) 1000 (.error "boom") ⟨[], [], ⟨[], []⟩, 0⟩
      ⟨⟨"u", [.owner], "t", "local"⟩, "telegram.v2.chats", "get_chats", "acct", .null,
        none, false, none, none, false⟩).2.auditLog) = 1 ∧
    (executeSecured ⟨⟨.allow, [.owner, .admin]⟩, defaultApprovalsConfig⟩ []
      (fun s => s) 1000 (.error "boom") ⟨[], [], ⟨[], []⟩, 0⟩
      ⟨⟨"u", [.owner], "t", "local"⟩, "telegram.v2.chats", "get_chats", "acct", .null,
        none, false, none, none, false⟩).1 = .error "boom" := by
  have hm := C1_tool_execute_audit.1 ⟨⟨.allow, [.owner, .admin]⟩, defaultApprovalsConfig⟩ []
    (fun s => s) 1000 (.error "boom") ⟨[], [], ⟨[], []⟩, 0⟩
    ⟨⟨"u", [.owner], "t", "local"⟩, "telegram.v2.chats", "get_chats", "acct", .null,
      none, false, none, none, false⟩
    (executeSecured ⟨⟨.allow, [.owner, .admin]⟩, defaultApprovalsConfig⟩ []
      (fun s => s) 1000 (.error "boom") ⟨[], [], ⟨[], []⟩, 0⟩
      ⟨⟨"u", [.owner], "t", "local"⟩, "telegram.v2.chats", "get_chats", "acct", .null,
        none, false, none, none, false⟩).1
    (executeSecured ⟨⟨.allow, [.owner, .admin]⟩, defaultApprovalsConfig⟩ []
      (fun s => s) 1000 (.error "boom") ⟨[], [], ⟨[], []⟩, 0⟩
      ⟨⟨"u", [.owner], "t", "local"⟩, "telegram.v2.chats", "get_chats", "acct", .null,
        none, false, none, none, false⟩).2
    rfl (by decide)
  refine ⟨by simpa [countExec] using hm.1, (hm.2 "boom" rfl).1⟩


/-! ## C5: idempotency-key replay -/

/-- C5 (amended) — If a first call with idempotency key `k` actually
executed and returned `ok resp1` (so its envelope was cached), then a
second allowed, non-dry-run call carrying the same key within the 300 s TTL
returns the first call's cached envelope with an `idempotent: true` field
added — identical in every other byte — and does not invoke the domain
operation again, write the cache, or touch the approval store. -/
theorem C5_idempotent_replay (cfg1 cfg2 : SecConfig)
    (perms1 perms2 : List ToolPermission) (hash1 hash2 : String → String)
    (now1 now2 : Nat) (exec1 exec2 : Except String Json) (st0 st1 : PipeState)
    (input1 input2 : SecInput) (resp1 : Json) (k : String)
    (h1 : executeSecured cfg1 perms1 hash1 now1 exec1 st0 input1 = (.ok resp1, st1))
    (hexec : st1.domainCalls = st0.domainCalls + 1)
    (hk1 : input1.idempotencyKey = some k)
    (hk2 : input2.idempotencyKey = some k)
    (hdry : input2.dryRun = false)
    (hallow : (PolicyEngine.evaluate cfg2.policy perms2 input2.principal input2.tool
      input2.operation (classifyRisk input2.tool input2.operation input2.defaultRisk)).allow =
      true)
    (hfresh : now2 < now1 + 300 * 1000) :
    (executeSecured cfg2 perms2 hash2 now2 exec2 st1 input2).1 =
        .ok (jsonSetField resp1 "idempotent" (.bool true)) ∧
    (executeSecured cfg2 perms2 hash2 now2 exec2 st1 input2).2.domainCalls =
        st1.domainCalls ∧
    (executeSecured cfg2 perms2 hash2 now2 exec2 st1 input2).2.idem = st1.idem ∧
    (executeSecured cfg2 perms2 hash2 now2 exec2 st1 input2).2.approvals = st1.approvals := by
  have hm := (executeSecured_reached cfg1 perms1 hash1 now1 exec1 st0 input1 _ _ h1 hexec).2
  have hidem : st1.idem = idemSave st0.idem now1 k (input1.tool ++ "." ++ input1.operation)
      resp1 := by
    cases exec1 with
    | error e =>
      have := (hm.1 e rfl).1
      simp at this
    | ok r =>
      obtain ⟨resp, hresp, hid⟩ := hm.2 r rfl
      have hrr : resp = resp1 := by
        injection hresp with h2
        exact h2.symm
      rw [hk1] at hid
      rw [hid, hrr]
  have htry : idemTryGet st1.idem now2 k = some resp1 := by
    rw [hidem]
    exact idemTryGet_save st0.idem now1 now2 300 k
      (input1.tool ++ "." ++ input1.operation) resp1 hfresh
  refine ⟨?_, ?_, ?_, ?_⟩ <;>
    (simp only [executeSecured]
     rw [if_neg (by simp [hallow]), if_neg (by simp [hdry])]
     simp only [hk2, htry])


/-- Counterexample to C5 as stated: the replayed response is **not**
byte-identical to the first call's envelope — it carries an extra
`idempotent: true` field added by the cache-hit branch. -/
theorem C5_replay_not_byte_identical :
    (executeSecured ⟨⟨.allow, [.owner, .admin]⟩, defaultApprovalsConfig⟩ []
      (fun s => s) 1000 (.ok (.num 42)) ⟨[], [], ⟨[], []⟩, 0⟩
      ⟨⟨"u", [.owner], "t", "local"⟩, "telegram.v2.chats", "get_chats", "acct", .null,
        some "k1", false, none, none, false⟩).1 =
      .ok (.obj (.cons "ok" (.bool true) (.cons "tool" (.str "telegram.v2.chats")
        (.cons "operation" (.str "get_chats") (.cons "riskLevel" (.str "low")
          (.cons "approvalId" .null (.cons "result" (.num 42) .nil))))))) ∧
    (executeSecured ⟨⟨.allow, [.owner, .admin]⟩, defaultApprovalsConfig⟩ []
      (fun s => s) 1000 (.ok (.num 43))
      (executeSecured ⟨⟨.allow, [.owner, .admin]⟩, defaultApprovalsConfig⟩ []
        (fun s => s) 1000 (.ok (.num 42)) ⟨[], [], ⟨[], []⟩, 0⟩
        ⟨⟨"u", [.owner], "t", "local"⟩, "telegram.v2.chats", "get_chats", "acct", .null,
          some "k1", false, none, none, false⟩).2
      ⟨⟨"u", [.owner], "t", "local"⟩, "telegram.v2.chats", "get_chats", "acct", .null,
        some "k1", false, none, none, false⟩).1 =
      .ok (.obj (.cons "ok" (.bool true) (.cons "tool" (.str "telegram.v2.chats")
        (.cons "operation" (.str "get_chats") (.cons "riskLevel" (.str "low")
          (.cons "approvalId" .null (.cons "result" (.num 42)
            (.cons "idempotent" (.bool true) .nil)))))))) ∧
    Json.obj (.cons "ok" (.bool true) (.cons "tool" (.str "telegram.v2.chats")
      (.cons "operation" (.str "get_chats") (.cons "riskLevel" (.str "low")
        (.cons "approvalId" .null (.cons "result" (.num 42)
          (.cons "idempotent" (.bool true) .nil))))))) ≠
    Json.obj (.cons "ok" (.bool true) (.cons "tool" (.str "telegram.v2.chats")
      (.cons "operation" (.str "get_chats") (.cons "riskLevel" (.str "low")
        (.cons "approvalId" .null (.cons "result" (.num 42) .nil)))))) := by
  decide

/-- Witness for C5 at a concrete pair of calls sharing key `k1`. -/
theorem C5_idempotent_replay_witness :
    (executeSecured ⟨⟨.allow, [.owner, .admin]⟩, defaultApprovalsConfig⟩ []
      (fun s => s) 1100 (.ok (.num 43))
      (executeSecured ⟨⟨.allow, [.owner, .admin]⟩, defaultApprovalsConfig⟩ []
        (fun s => s) 1000 (.ok (.num 42)) ⟨[], [], ⟨[], []⟩, 0⟩
        ⟨⟨"u", [.owner], "t", "local"⟩, "telegram.v2.chats", "get_chats", "acct", .null,
          some "k1", false, none, none, false⟩).2
      ⟨⟨"u", [.owner], "t", "local"⟩, "telegram.v2.chats", "get_chats", "acct", .null,
        some "k1", false, none, none, false⟩).1 =
      .ok (jsonSetField
        (.obj (.cons "ok" (.bool true) (.cons "tool" (.str "telegram.v2.chats")
          (.cons "operation" (.str "get_chats") (.cons "riskLevel" (.str "low")
            (.cons "approvalId" .null (.cons "result" (.num 42) .nil)))))))
        "idempotent" (.bool true)) ∧
    (executeSecured ⟨⟨.allow, [.owner, .admin]⟩, defaultApprovalsConfig⟩ []
      (fun s => s) 1100 (.ok (.num 43))
      (executeSecured ⟨⟨.allow, [.owner, .admin]⟩, defaultApprovalsConfig⟩ []
        (fun s => s) 1000 (.ok (.num 42)) ⟨[], [], ⟨[], []⟩, 0⟩
        ⟨⟨"u", [.owner], "t", "local"⟩, "telegram.v2.chats", "get_chats", "acct", .null,
          some "k1", false, none, none, false⟩).2
      ⟨⟨"u", [.owner], "t", "local"⟩, "telegram.v2.chats", "get_chats", "acct", .null,
        some "k1", false, none, none, false⟩).2.domainCalls =
      (executeSecured ⟨⟨.allow, [.owner, .admin]⟩, defaultApprovalsConfig⟩ []
        (fun s => s) 1000 (.ok (.num 42)) ⟨[], [], ⟨[], []⟩, 0⟩
        ⟨⟨"u", [.owner], "t", "local"⟩, "telegram.v2.chats", "get_chats", "acct", .null,
          some "k1", false, none, none, false⟩).2.domainCalls := by
  have hm := C5_idempotent_replay
    ⟨⟨.allow, [.owner, .admin]⟩, defaultApprovalsConfig⟩
    ⟨⟨.allow, [.owner, .admin]⟩, defaultApprovalsConfig⟩ [] [] (fun s => s) (fun s => s)
    1000 1100 (.ok (.num 42)) (.ok (.num 43)) ⟨[], [], ⟨[], []⟩, 0⟩
    (executeSecured ⟨⟨.allow, [.owner, .admin]⟩, defaultApprovalsConfig⟩ []
      (fun s => s) 1000 (.ok (.num 42)) ⟨[], [], ⟨[], []⟩, 0⟩
      ⟨⟨"u", [.owner], "t", "local"⟩, "telegram.v2.chats", "get_chats", "acct", .null,
        some "k1", false, none, none, false⟩).2
    ⟨⟨"u", [.owner], "t", "local"⟩, "telegram.v2.chats", "get_chats", "acct", .null,
      some "k1", false, none, none, false⟩
    ⟨⟨"u", [.owner], "t", "local"⟩, "telegram.v2.chats", "get_chats", "acct", .null,
      some "k1", false, none, none, false⟩
    (.obj (.cons "ok" (.bool true) (.cons "tool" (.str "telegram.v2.chats")
      (.cons "operation" (.str "get_chats") (.cons "riskLevel" (.str "low")
        (.cons "approvalId" .null (.cons "result" (.num 42) .nil)))))))
    "k1" (by decide) (by decide) rfl rfl rfl (by decide) (by decide)
  exact ⟨hm.1, hm.2.1⟩


/-! ## C8: dry-run short-circuit -/

/-- C8 (amended) — An allowed dry-run invocation short-circuits after the
authorization audit on both paths, performing no idempotency read or write,
no approval verification or consumption, and no domain call.  The v2
pipeline returns a synthetic envelope carrying the computed risk level, but
the Bot-API path's synthetic envelope carries only the method and family —
it has no `riskLevel` field. -/
theorem C8_dry_run_short_circuit :
    (∀ (cfg : SecConfig) (permissions : List ToolPermission) (hash : String → String)
        (now : Nat) (execute : Except String Json) (st : PipeState) (input : SecInput),
      (PolicyEngine.evaluate cfg.policy permissions input.principal input.tool
        input.operation (classifyRisk input.tool input.operation input.defaultRisk)).allow =
        true →
      input.dryRun = true →
      (executeSecured cfg permissions hash now execute st input).1 =
          .ok (.obj (.cons "ok" (.bool true) (.cons "dryRun" (.bool true)
            (.cons "tool" (.str input.tool) (.cons "operation" (.str input.operation)
              (.cons "riskLevel"
                (.str (riskStr (classifyRisk input.tool input.operation input.defaultRisk)))
                .nil)))))) ∧
      jsonGetField (.obj (.cons "ok" (.bool true) (.cons "dryRun" (.bool true)
          (.cons "tool" (.str input.tool) (.cons "operation" (.str input.operation)
            (.cons "riskLevel"
              (.str (riskStr (classifyRisk input.tool input.operation input.defaultRisk)))
              .nil)))))) "riskLevel" =
        some (.str (riskStr (classifyRisk input.tool input.operation input.defaultRisk))) ∧
      (executeSecured cfg permissions hash now execute st input).2.idem = st.idem ∧
      (executeSecured cfg permissions hash now execute st input).2.approvals =
        st.approvals ∧
      (executeSecured cfg permissions hash now execute st input).2.domainCalls =
        st.domainCalls) ∧
    (∀ (cfg : PolicyConfig) (permissions : List ToolPermission) (table : List BotMethodSpec)
        (validate : String → Json → Except String Unit) (resolveToken : Except String String)
        (callApi : Except String Json) (now : Nat) (st : BotState) (family : BotToolFamily)
        (request : BotRequest) (principal : Principal) (m : String),
      resolveMethodName table family request.operation request.input = .ok m →
      validate m (resolveMethodPayload family request.input) = .ok () →
      (PolicyEngine.evaluate cfg permissions principal ("telegram.bot." ++ familyStr family)
        m (botRiskLevel table m)).allow = true →
      request.dryRun = true →
      (TelegramBotService.executeDomainTool cfg permissions table validate resolveToken
          callApi now st family request principal).1 =
        .ok (.obj (.cons "ok" (.bool true) (.cons "dryRun" (.bool true)
          (.cons "method" (.str m) (.cons "family" (.str (familyStr family)) .nil))))) ∧
      jsonGetField (.obj (.cons "ok" (.bool true) (.cons "dryRun" (.bool true)
          (.cons "method" (.str m) (.cons "family" (.str (familyStr family)) .nil)))))
        "riskLevel" = none ∧
      (TelegramBotService.executeDomainTool cfg permissions table validate resolveToken
          callApi now st family request principal).2.idem = st.idem ∧
      (TelegramBotService.executeDomainTool cfg permissions table validate resolveToken
          callApi now st family request principal).2.domainCalls = st.domainCalls) := by
  constructor
  · intro cfg permissions hash now execute st input hallow hdry
    refine ⟨?_, ?_, ?_, ?_, ?_⟩ <;>
      first
        | (simp [jsonGetField, JsonEntries.toList])
        | (simp only [executeSecured]
           rw [if_neg (by simp [hallow]), if_pos hdry])
  · intro cfg permissions table validate resolveToken callApi now st family request
      principal m hres hval hallow hdry
    refine ⟨?_, ?_, ?_, ?_⟩ <;>
      first
        | (simp [jsonGetField, JsonEntries.toList])
        | (simp only [TelegramBotService.executeDomainTool, hres, hval]
           rw [if_neg (by simp [hallow]), if_pos hdry])

/-- Counterexample to C8 as stated: an allowed Bot-API dry-run invocation
returns a synthetic result with no `riskLevel` field at all. -/
theorem C8_bot_dry_run_lacks_risk_level :
    (TelegramBotService.executeDomainTool ⟨.allow, [.owner, .admin]⟩ [] []
      (fun _ _ => .ok ()) (.ok "bot-token") (.ok (.num 1)) 1000 ⟨[], [], 0⟩ .raw
      ⟨"acct", "call", .obj (.cons "method" (.str "sendMessage") .nil), none, true⟩
      ⟨"root", [.owner], "tenant", "local"⟩).1 =
      .ok (.obj (.cons "ok" (.bool true) (.cons "dryRun" (.bool true)
        (.cons "method" (.str "sendMessage") (.cons "family" (.str "raw") .nil))))) ∧
    jsonGetField (.obj (.cons "ok" (.bool true) (.cons "dryRun" (.bool true)
        (.cons "method" (.str "sendMessage") (.cons "family" (.str "raw") .nil)))))
      "riskLevel" = none := by
  decide

/-- Witness for C8 at concrete dry-run invocations on both paths. -/
theorem C8_dry_run_short_circuit_witness :
    (executeSecured ⟨⟨.allow, [.owner, .admin]⟩, defaultApprovalsConfig⟩ []
      (fun s => s) 1000 (.error "must-not-run") ⟨[], [], ⟨[], []⟩, 0⟩
      ⟨⟨"u", [.owner], "t", "local"⟩, "telegram.v2.chats", "get_chats", "acct", .null,
        some "k1", true, none, none, false⟩).1 =
      .ok (.obj (.cons "ok" (.bool true) (.cons "dryRun" (.bool true)
        (.cons "tool" (.str "telegram.v2.chats") (.cons "operation" (.str "get_chats")
          (.cons "riskLevel" (.str "low") .nil)))))) ∧
    (executeSecured ⟨⟨.allow, [.owner, .admin]⟩, defaultApprovalsConfig⟩ []
      (fun s => s) 1000 (.error "must-not-run") ⟨[], [], ⟨[], []⟩, 0⟩
      ⟨⟨"u", [.owner], "t", "local"⟩, "telegram.v2.chats", "get_chats", "acct", .null,
        some "k1", true, none, none, false⟩).2.domainCalls = 0 ∧
    (TelegramBotService.executeDomainTool ⟨.allow, [.owner, .admin]⟩ [] []
      (fun _ _ => .ok ()) (.ok "bot-token") (.ok (.num 1)) 1000 ⟨[], [], 0⟩ .raw
      ⟨"acct", "call", .obj (.cons "method" (.str "sendMessage") .nil), none, true⟩
      ⟨"root", [.owner], "tenant", "local"⟩).2.domainCalls = 0 := by
  have h1 := C8_dry_run_short_circuit.1
    ⟨⟨.allow, [.owner, .admin]⟩, defaultApprovalsConfig⟩ [] (fun s => s) 1000
    (.error "must-not-run") ⟨[], [], ⟨[], []⟩, 0⟩
    ⟨⟨"u", [.owner], "t", "local"⟩, "telegram.v2.chats", "get_chats", "acct", .null,
      some "k1", true, none, none, false⟩ (by decide) rfl
  have h2 := C8_dry_run_short_circuit.2 ⟨.allow, [.owner, .admin]⟩ [] []
    (fun _ _ => .ok ()) (.ok "bot-token") (.ok (.num 1)) 1000 ⟨[], [], 0⟩ .raw
    ⟨"acct", "call", .obj (.cons "method" (.str "sendMessage") .nil), none, true⟩
    ⟨"root", [.owner], "tenant", "local"⟩ "sendMessage" (by decide) rfl (by decide) rfl
  exact ⟨h1.1, by rw [h1.2.2.2.2], h2.2.2.2⟩


/-! ## C10: fail-closed risk for unknown Bot-API methods -/

/-- C10 — The Bot-API path assigns `botRiskLevel`, computed before policy
evaluation: a method absent from the method table gets `critical` — the
maximum of the risk order — and a method present in the table gets its
table risk level.  Methods outside the table are reachable only through the
`raw` family: for every other family a successful `resolveMethodName`
returns a method that is in the table. -/
theorem C10_unknown_bot_method_critical :
    (∀ (table : List BotMethodSpec) (m : String), byName table m = none →
      botRiskLevel table m = .critical) ∧
    (∀ (table : List BotMethodSpec) (m : String) (spec : BotMethodSpec),
      byName table m = some spec → botRiskLevel table m = spec.riskLevel) ∧
    (∀ r : RiskLevel, riskLe r .critical) ∧
    (∀ (table : List BotMethodSpec) (family : BotToolFamily) (operation : String)
        (input : Json) (m : String), family ≠ .raw →
      resolveMethodName table family operation input = .ok m →
      ∃ spec, byName table m = some spec) := by
  refine ⟨?_, ?_, ?_, ?_⟩
  · intro table m h
    simp [botRiskLevel, h]
  · intro table m spec h
    simp [botRiskLevel, h]
  · intro r
    cases r <;> decide
  · intro table family operation input m hfam hres
    rw [resolveMethodName, if_neg hfam] at hres
    split at hres
    · rename_i found hfound
      split at hres
      · exact absurd hres (by simp)
      · rename_i hfameq
        have hm : m = operation := by
          injection hres with h2
          exact h2.symm
        rw [hm]
        exact ⟨found, hfound⟩
    · rename_i hnone
      split at hres
      · rename_i item hitem
        have hm : m = item.method := by
          injection hres with h2
          exact h2.symm
        have hmem : item ∈ table := (List.mem_filter.mp
          (List.mem_of_find?_eq_some hitem)).1
        have hsome : (byName table m).isSome := by
          rw [byName]
          apply List.find?_isSome.mpr
          exact ⟨item, List.mem_reverse.mpr hmem, by simp [hm]⟩
        exact Option.isSome_iff_exists.mp hsome
      · exact absurd hres (by simp)

/-- Witness for C10 with a one-entry method table. -/
theorem C10_unknown_bot_method_critical_witness :
    botRiskLevel [⟨"sendMessage", .messages, .low⟩] "unknownMethod" = .critical ∧
    botRiskLevel [⟨"sendMessage", .messages, .low⟩] "sendMessage" = .low ∧
    riskLe .high .critical ∧
    ∃ spec, byName [⟨"sendMessage", .messages, .low⟩] "sendMessage" = some spec := by
  refine ⟨?_, ?_, ?_, ?_⟩
  · exact C10_unknown_bot_method_critical.1 [⟨"sendMessage", .messages, .low⟩]
      "unknownMethod" (by decide)
  · exact C10_unknown_bot_method_critical.2.1 [⟨"sendMessage", .messages, .low⟩]
      "sendMessage" ⟨"sendMessage", .messages, .low⟩ (by decide)
  · exact C10_unknown_bot_method_critical.2.2.1 .high
  · exact C10_unknown_bot_method_critical.2.2.2 [⟨"sendMessage", .messages, .low⟩]
      .messages "sendMessage" .null "sendMessage" (by decide) (by decide)

